import Mathlib

/-!
Shallow embedding of the secrets-manager core of the Highlighting repository
(backend/secrets_manager): the symmetric envelope (core/crypto/symmetric.py),
the repository layer (app/crud.py), the service layer (app/service.py) and the
gRPC facade (app/grpc/server.py), together with theorems settling the frozen
claims about them.

Byte strings are modelled as `List Nat` (each entry one byte).  The AES block
encryption performed by the external `cryptography` library is abstracted as a
function `E : Bytes → Bytes` (the AES permutation under the master key applied
to one 16-byte block); the CFB mode built on top of it, the `iv || ciphertext`
framing and the 16-byte IV slicing are translated from symmetric.py.  Fresh
random values drawn during a call (IVs, `os.urandom` key bytes, generated kids
and timestamps) are passed as explicit parameters.
-/

namespace SecretsManager

abbrev Bytes := List Nat

/-- One CFB-128 encryption pass, as performed by
`cipher.encryptor().update(plaintext)` in aes_encrypt_data: the shift register
`sr` starts at the IV, each (at most 16-byte) plaintext chunk is XORed with the
encrypted shift register, and the produced ciphertext chunk becomes the next
shift register.  The fuel argument is instantiated with `plaintext.length`,
which bounds the number of chunks. -/
def cfbEncryptAux (E : Bytes → Bytes) : Nat → Bytes → Bytes → Bytes
  | 0, _, _ => []
  | _ + 1, _, [] => []
  | n + 1, sr, b :: bs =>
    let chunk := (b :: bs).take 16
    let ks := (E sr).take chunk.length
    let c := List.zipWith Nat.xor chunk ks
    c ++ cfbEncryptAux E n c ((b :: bs).drop 16)

/-- One CFB-128 decryption pass (`cipher.decryptor().update(...)` in
aes_decrypt_data): identical keystream generation, but the shift register is
fed with the incoming ciphertext chunk. -/
def cfbDecryptAux (E : Bytes → Bytes) : Nat → Bytes → Bytes → Bytes
  | 0, _, _ => []
  | _ + 1, _, [] => []
  | n + 1, sr, b :: bs =>
    let chunk := (b :: bs).take 16
    let ks := (E sr).take chunk.length
    let p := List.zipWith Nat.xor chunk ks
    p ++ cfbDecryptAux E n chunk ((b :: bs).drop 16)

/-- symmetric.py `aes_encrypt_data`: a fresh 16-byte IV (passed here as the
parameter `iv`, drawn by `os.urandom(16)` in the source) is prepended to the
CFB encryption of the plaintext. -/
def aes_encrypt_data (E : Bytes → Bytes) (iv plaintext : Bytes) : Bytes :=
  iv ++ cfbEncryptAux E plaintext.length iv plaintext

/-- Modelled from the external `cryptography` library: `modes.CFB(iv)` raises
`ValueError` unless the IV is exactly one block (16 bytes) long.  `none` stands
for that raised error. -/
def CFB_checkIV (iv : Bytes) : Option Unit :=
  if iv.length = 16 then some () else none

/-- symmetric.py `aes_decrypt_data`: the first 16 bytes of the blob are sliced
off as the IV (`ciphertext[:16]`), the remainder is CFB-decrypted.  A blob
shorter than 16 bytes yields a short IV, which the CFB mode rejects: the call
raises, modelled as `none`. -/
def aes_decrypt_data (E : Bytes → Bytes) (ciphertext : Bytes) : Option Bytes :=
  let iv := ciphertext.take 16
  let actual := ciphertext.drop 16
  match CFB_checkIV iv with
  | none => none
  | some _ => some (cfbDecryptAux E actual.length iv actual)

/-- symmetric.py `generate_key`: `key_size` bytes from `os.urandom`, plus a kid
and a creation timestamp.  The OS random source is passed as the function
`urandom`; kid and timestamp generation are external to this definition. -/
structure GeneratedSymKey where
  kid : String
  key : Bytes
  created_at : Nat
deriving DecidableEq, Repr

def generate_symmetric_key (urandom : Nat → Bytes) (kid : String)
    (created_at : Nat) (key_size : Nat) : GeneratedSymKey :=
  { kid := kid, key := urandom key_size, created_at := created_at }

/-! ### Data model (app/models.py)

The three record kinds, with their Python class names.  `created_at` is a
timestamp modelled as `Nat`; payload columns are byte strings.  The
`private_key` column of `AsymmetricKeyPair` is non-nullable in the table, but
crud.py assigns `None` to the in-memory attribute when only the public part is
requested, so the field is modelled as `Option Bytes` (stored rows always carry
`some`). -/

structure SecretsManagerSecret where
  kid : String
  key_name : String
  key_type : Option String
  value : Bytes
  created_at : Nat
  mk_version : Nat
  is_active : Bool
deriving DecidableEq, Repr

structure AsymmetricKeyPair where
  kid : String
  key_name : String
  key_type : Option String
  public_key : Bytes
  private_key : Option Bytes
  created_at : Nat
  mk_version : Nat
  is_active : Bool
deriving DecidableEq, Repr

structure SymmetricKey where
  kid : String
  key_name : String
  key_type : Option String
  key_value : Bytes
  created_at : Nat
  mk_version : Nat
  is_active : Bool
deriving DecidableEq, Repr

/-- The exceptions that travel from crud/service code to the gRPC handlers:
`multipleResultsFound` is sqlalchemy's error from `scalar_one_or_none` on a
query returning more than one row; `valueError` is the `ValueError` raised by
crud.get_asymmetric_key_pair_by_key_name for a `return_key_type` outside
{'pair', 'public'}; the last three are raised in service.py / by `.decode`. -/
inductive Exc where
  | multipleResultsFound
  | valueError
  | secretNotFoundError
  | decryptionError
  | unicodeDecodeError
deriving DecidableEq, Repr

deriving instance DecidableEq for Except

/-- sqlalchemy `Result.scalar_one_or_none()`: `none` for an empty result, the
row for a singleton result, and the `MultipleResultsFound` error when the
query produced more than one row. -/
def scalar_one_or_none {α : Type} : List α → Except Exc (Option α)
  | [] => .ok none
  | [r] => .ok (some r)
  | _ :: _ :: _ => .error .multipleResultsFound

/-- `order_by(created_at.desc())`: insertion sort, most recent first. -/
def insertDescBy {α : Type} (key : α → Nat) (r : α) : List α → List α
  | [] => [r]
  | x :: xs => if key x < key r then r :: x :: xs else x :: insertDescBy key r xs

def sortDescBy {α : Type} (key : α → Nat) (l : List α) : List α :=
  l.foldr (insertDescBy key) []

/-! ### Repository (app/crud.py) -/

namespace crud

/-- The `select ... where key_name == ... where is_active is true` row set. -/
def activeSecretsByName (db : List SecretsManagerSecret) (key_name : String) :
    List SecretsManagerSecret :=
  db.filter (fun r => r.key_name == key_name && r.is_active)

def activeAsymByName (db : List AsymmetricKeyPair) (key_name : String) :
    List AsymmetricKeyPair :=
  db.filter (fun r => r.key_name == key_name && r.is_active)

def activeSymByName (db : List SymmetricKey) (key_name : String) :
    List SymmetricKey :=
  db.filter (fun r => r.key_name == key_name && r.is_active)

/-- crud.get_secret_by_key_name: filter on name and is_active, no ordering,
`scalar_one_or_none` on the result. -/
def get_secret_by_key_name (db : List SecretsManagerSecret) (key_name : String) :
    Except Exc (Option SecretsManagerSecret) :=
  scalar_one_or_none (activeSecretsByName db key_name)

/-- crud.create_secret: build the new row (is_active defaults to true), look
up the current active row for the same name and flip it to inactive (first
commit), then insert the new row (second commit).  The deactivation updates
the row identified by its primary key `kid`.  Returns the new db state and
the inserted row. -/
def create_secret (db : List SecretsManagerSecret) (kid key_name : String)
    (key_type : Option String) (value : Bytes) (created_at : Nat)
    (mk_version : Nat) :
    Except Exc (List SecretsManagerSecret × SecretsManagerSecret) :=
  let db_secret : SecretsManagerSecret :=
    { kid := kid, key_name := key_name, key_type := key_type, value := value,
      created_at := created_at, mk_version := mk_version, is_active := true }
  match get_secret_by_key_name db key_name with
  | .error e => .error e
  | .ok old =>
    let db1 := match old with
      | some o => db.map (fun r => if r.kid == o.kid then { r with is_active := false } else r)
      | none => db
    .ok (db1 ++ [db_secret], db_secret)

/-- crud.get_asymmetric_key_pair_by_key_name: `ValueError` for a
return_key_type outside the allow list; otherwise filter on name and
is_active, order by created_at descending, `scalar_one_or_none`; for
'public' the private-key attribute of the returned row is set to `None`. -/
def get_asymmetric_key_pair_by_key_name (db : List AsymmetricKeyPair)
    (key_name : String) (return_key_type : String) :
    Except Exc (Option AsymmetricKeyPair) :=
  let allow_key_types := ["pair", "public"]
  if !(allow_key_types.contains return_key_type) then .error .valueError
  else
    match scalar_one_or_none
        (sortDescBy (fun r => r.created_at) (activeAsymByName db key_name)) with
    | .error e => .error e
    | .ok none => .ok none
    | .ok (some r) =>
      .ok (some (if return_key_type == "public" then { r with private_key := none } else r))

/-- crud.create_asymmetric_key_pair: same deactivate-then-insert sequence; the
lookup of the current active row uses return_key_type='pair'. -/
def create_asymmetric_key_pair (db : List AsymmetricKeyPair)
    (kid key_name : String) (private_key public_key : Bytes) (created_at : Nat)
    (mk_version : Nat) (key_type : Option String) :
    Except Exc (List AsymmetricKeyPair × AsymmetricKeyPair) :=
  let db_key_pair : AsymmetricKeyPair :=
    { kid := kid, key_name := key_name, key_type := key_type,
      public_key := public_key, private_key := some private_key,
      created_at := created_at, mk_version := mk_version, is_active := true }
  match get_asymmetric_key_pair_by_key_name db key_name "pair" with
  | .error e => .error e
  | .ok old =>
    let db1 := match old with
      | some o => db.map (fun r => if r.kid == o.kid then { r with is_active := false } else r)
      | none => db
    .ok (db1 ++ [db_key_pair], db_key_pair)

/-- crud.get_symmetric_key_by_key_name: filter on name and is_active, order
by created_at descending, `scalar_one_or_none`. -/
def get_symmetric_key_by_key_name (db : List SymmetricKey) (key_name : String) :
    Except Exc (Option SymmetricKey) :=
  scalar_one_or_none
    (sortDescBy (fun r => r.created_at) (activeSymByName db key_name))

/-- crud.create_symmetric_key: same deactivate-then-insert sequence. -/
def create_symmetric_key (db : List SymmetricKey) (kid key_name : String)
    (key_type : Option String) (key_value : Bytes) (created_at : Nat)
    (mk_version : Nat) :
    Except Exc (List SymmetricKey × SymmetricKey) :=
  let db_symmetric_key : SymmetricKey :=
    { kid := kid, key_name := key_name, key_type := key_type,
      key_value := key_value, created_at := created_at,
      mk_version := mk_version, is_active := true }
  match get_symmetric_key_by_key_name db key_name with
  | .error e => .error e
  | .ok old =>
    let db1 := match old with
      | some o => db.map (fun r => if r.kid == o.kid then { r with is_active := false } else r)
      | none => db
    .ok (db1 ++ [db_symmetric_key], db_symmetric_key)

end crud

/-! ### Service (app/service.py)

The master key `mk` enters every cryptographic call only through the AES
block-encryption function it determines, abstracted as `E`.  `orm_to_dict`
copies every column of the row, so the service's result dictionaries are
modelled by the row structures themselves, with payload fields overwritten by
plaintext where the service decrypts.  Fresh values produced during the call
(kid, creation timestamp, IVs, generated key material) are explicit
parameters. -/

namespace service

/-- service.create_secrets_key: stamp creation time, generate a kid, encrypt
the value under the master key, persist via crud, return `orm_to_dict` of the
persisted row (its `value` is the ciphertext that was just written). -/
def create_secrets_key (E : Bytes → Bytes) (iv : Bytes) (kid : String)
    (created_at : Nat) (db : List SecretsManagerSecret) (key_name : String)
    (value : Bytes) (mk_version : Nat) (key_type : Option String) :
    Except Exc (List SecretsManagerSecret × SecretsManagerSecret) :=
  let encrypted_value := aes_encrypt_data E iv value
  crud.create_secret db kid key_name key_type encrypted_value created_at mk_version

/-- service.get_secret_by_name: fetch the active row (SecretNotFoundError if
absent), decrypt its value (any failure becomes DecryptionError), return the
dict with the plaintext in `value`. -/
def get_secret_by_name (E : Bytes → Bytes) (db : List SecretsManagerSecret)
    (key_name : String) : Except Exc SecretsManagerSecret :=
  match crud.get_secret_by_key_name db key_name with
  | .error e => .error e
  | .ok none => .error .secretNotFoundError
  | .ok (some secret) =>
    match aes_decrypt_data E secret.value with
    | none => .error .decryptionError
    | some pt => .ok { secret with value := pt }

/-- service.create_asymmetric_key_pair: the RSA pair generated by the external
library is the parameter pair `private_key_pem`/`public_key_pem`; both PEM
blobs are encrypted independently and persisted.  Returns `orm_to_dict` of the
persisted row (encrypted payloads). -/
def create_asymmetric_key_pair (E : Bytes → Bytes) (ivPriv ivPub : Bytes)
    (kid : String) (created_at : Nat) (private_key_pem public_key_pem : Bytes)
    (db : List AsymmetricKeyPair) (key_name : String) (mk_version : Nat)
    (key_type : Option String) :
    Except Exc (List AsymmetricKeyPair × AsymmetricKeyPair) :=
  let encrypted_private_key := aes_encrypt_data E ivPriv private_key_pem
  let encrypted_public_key := aes_encrypt_data E ivPub public_key_pem
  crud.create_asymmetric_key_pair db kid key_name encrypted_private_key
    encrypted_public_key created_at mk_version key_type

/-- service.get_asymmetric_key_pair_by_key_name: fetch via crud (which
validates return_key_type and nulls the private key for 'public'), decrypt
the public key always, decrypt the private key only when
return_key_type == 'pair' (decrypting the `None` attribute would raise and is
likewise wrapped into DecryptionError). -/
def get_asymmetric_key_pair_by_key_name (E : Bytes → Bytes)
    (db : List AsymmetricKeyPair) (key_name : String)
    (return_key_type : String) : Except Exc AsymmetricKeyPair :=
  match crud.get_asymmetric_key_pair_by_key_name db key_name return_key_type with
  | .error e => .error e
  | .ok none => .error .secretNotFoundError
  | .ok (some kp) =>
    match aes_decrypt_data E kp.public_key with
    | none => .error .decryptionError
    | some pub =>
      if return_key_type == "pair" then
        match kp.private_key with
        | none => .error .decryptionError
        | some pk =>
          match aes_decrypt_data E pk with
          | none => .error .decryptionError
          | some priv =>
            .ok { kp with public_key := pub, private_key := some priv }
      else
        .ok { kp with public_key := pub }

/-- service.create_symmetric_key: generate `key_size` random bytes, encrypt
them, persist via crud, return `orm_to_dict` of the persisted row. -/
def create_symmetric_key (E : Bytes → Bytes) (urandom : Nat → Bytes)
    (iv : Bytes) (kid : String) (created_at : Nat) (db : List SymmetricKey)
    (key_size : Nat) (key_name : String) (mk_version : Nat)
    (key_type : Option String) :
    Except Exc (List SymmetricKey × SymmetricKey) :=
  let new_symmetric_key := generate_symmetric_key urandom kid created_at key_size
  let encrypted_key := aes_encrypt_data E iv new_symmetric_key.key
  crud.create_symmetric_key db new_symmetric_key.kid key_name key_type
    encrypted_key new_symmetric_key.created_at mk_version

/-- service.get_symmetric_key_by_key_name: fetch the active row, decrypt the
key blob, return the dict with the raw key bytes in `key_value`. -/
def get_symmetric_key_by_key_name (E : Bytes → Bytes) (db : List SymmetricKey)
    (key_name : String) : Except Exc SymmetricKey :=
  match crud.get_symmetric_key_by_key_name db key_name with
  | .error e => .error e
  | .ok none => .error .secretNotFoundError
  | .ok (some symmetric_key) =>
    match aes_decrypt_data E symmetric_key.key_value with
    | none => .error .decryptionError
    | some pt => .ok { symmetric_key with key_value := pt }

end service

/-! ### RPC facade (app/grpc/server.py)

Each handler returns the db state left behind by the call paired with either
a transport status (for `context.abort`) or the serialized response message.
UTF-8 decoding of payload bytes (`bytes.decode("utf-8")`, which raises
`UnicodeDecodeError` on invalid data) is abstracted as the parameter `dec`;
`b64` abstracts `base64.b64encode(...).decode("ascii")`, which never fails.
`enc` abstracts `str.encode("utf-8")`. -/

inductive StatusCode where
  | failedPrecondition
  | notFound
  | permissionDenied
  | dataLoss
  | invalidArgument
  | internal
deriving DecidableEq, Repr

structure SecretPb where
  kid : String
  key_name : String
  key_type : String
  value : String
  created_at : Nat
  mk_version : Nat
  is_active : Bool
deriving DecidableEq, Repr

structure AsymmetricKeyPairPb where
  kid : String
  key_name : String
  key_type : String
  public_key : String
  private_key : String
  created_at : Nat
  mk_version : Nat
  is_active : Bool
deriving DecidableEq, Repr

structure SymmetricKeyPb where
  kid : String
  key_name : String
  key_type : String
  key_value : String
  created_at : Nat
  mk_version : Nat
  is_active : Bool
deriving DecidableEq, Repr

/-- `(x or b"").decode("utf-8")` on bytes: an empty byte string decodes to
the empty string, anything else goes through the abstract UTF-8 decoder. -/
def decode_or_empty (dec : Bytes → Option String) (bs : Bytes) : Option String :=
  if bs.isEmpty then some "" else dec bs

namespace rpc

/-- `int(request.mk_version) if request.mk_version else 1` (proto3 ints read 0
when unset, and 0 is falsy). -/
def mkVersionOrOne (v : Nat) : Nat := if v == 0 then 1 else v

/-- `request.key_type or None` (proto3 strings read "" when unset). -/
def keyTypeOrNone (s : String) : Option String := if s == "" then none else some s

structure CreateSecretRequest where
  key_name : String
  value : String
  key_type : String
  mk_version : Nat
deriving DecidableEq, Repr

/-- Servicer.CreateSecret: precondition-check the master key, create via the
service, serialize.  The response's `value` field is the plaintext the client
sent, not the persisted ciphertext.  Any exception aborts with INTERNAL. -/
def CreateSecret (E : Bytes → Bytes) (enc : String → Bytes) (mk : Bytes)
    (iv : Bytes) (kid : String) (created_at : Nat)
    (db : List SecretsManagerSecret) (request : CreateSecretRequest) :
    List SecretsManagerSecret × Except StatusCode SecretPb :=
  if mk.isEmpty then (db, .error .failedPrecondition)
  else
    let mk_version := mkVersionOrOne request.mk_version
    match service.create_secrets_key E iv kid created_at db request.key_name
        (enc request.value) mk_version (keyTypeOrNone request.key_type) with
    | .error _ => (db, .error .internal)
    | .ok (db1, result) =>
      (db1, .ok {
        kid := result.kid,
        key_name := result.key_name,
        key_type := result.key_type.getD "",
        value := request.value,
        created_at := result.created_at,
        mk_version := if result.mk_version == 0 then mk_version else result.mk_version,
        is_active := result.is_active })

structure GetSecretByNameRequest where
  key_name : String
deriving DecidableEq, Repr

/-- Servicer.GetSecretByName: NOT_FOUND for SecretNotFoundError,
PERMISSION_DENIED for DecryptionError, DATA_LOSS for UnicodeDecodeError,
INTERNAL for everything else. -/
def GetSecretByName (E : Bytes → Bytes) (dec : Bytes → Option String)
    (mk : Bytes) (db : List SecretsManagerSecret)
    (request : GetSecretByNameRequest) :
    List SecretsManagerSecret × Except StatusCode SecretPb :=
  if mk.isEmpty then (db, .error .failedPrecondition)
  else
    match service.get_secret_by_name E db request.key_name with
    | .error .secretNotFoundError => (db, .error .notFound)
    | .error .decryptionError => (db, .error .permissionDenied)
    | .error _ => (db, .error .internal)
    | .ok result =>
      match decode_or_empty dec result.value with
      | none => (db, .error .dataLoss)
      | some s =>
        (db, .ok {
          kid := result.kid,
          key_name := result.key_name,
          key_type := result.key_type.getD "",
          value := s,
          created_at := result.created_at,
          mk_version := if result.mk_version == 0 then 1 else result.mk_version,
          is_active := result.is_active })

structure CreateAsymmetricKeyPairRequest where
  key_name : String
  key_size : Nat
  key_type : String
  mk_version : Nat
deriving DecidableEq, Repr

/-- Servicer.CreateAsymmetricKeyPair: create via the service, then re-fetch
the just-written row through the read path with return_key_type='pair' and
decrypt it to obtain the plaintext PEMs for the response.  The handler has a
single generic except clause: every failure (including one after the encrypted
row was committed) aborts with INTERNAL, and nothing is rolled back. -/
def CreateAsymmetricKeyPair (E : Bytes → Bytes) (dec : Bytes → Option String)
    (mk : Bytes) (ivPriv ivPub : Bytes) (kid : String) (created_at : Nat)
    (private_key_pem public_key_pem : Bytes) (db : List AsymmetricKeyPair)
    (request : CreateAsymmetricKeyPairRequest) :
    List AsymmetricKeyPair × Except StatusCode AsymmetricKeyPairPb :=
  if mk.isEmpty then (db, .error .failedPrecondition)
  else
    let mk_version := mkVersionOrOne request.mk_version
    match service.create_asymmetric_key_pair E ivPriv ivPub kid created_at
        private_key_pem public_key_pem db request.key_name mk_version
        (keyTypeOrNone request.key_type) with
    | .error _ => (db, .error .internal)
    | .ok (db1, result) =>
      match service.get_asymmetric_key_pair_by_key_name E db1
          request.key_name "pair" with
      | .error _ => (db1, .error .internal)
      | .ok decrypted =>
        match decode_or_empty dec decrypted.public_key with
        | none => (db1, .error .internal)
        | some pub =>
          match decode_or_empty dec (decrypted.private_key.getD []) with
          | none => (db1, .error .internal)
          | some priv =>
            (db1, .ok {
              kid := result.kid,
              key_name := result.key_name,
              key_type := result.key_type.getD "",
              public_key := pub,
              private_key := priv,
              created_at := result.created_at,
              mk_version := if result.mk_version == 0 then mk_version else result.mk_version,
              is_active := result.is_active })

structure GetAsymmetricKeyPairByKeyNameRequest where
  key_name : String
  return_key_type : String
deriving DecidableEq, Repr

/-- Servicer.GetAsymmetricKeyPairByKeyName: an unset return_key_type defaults
to 'public'.  NOT_FOUND / PERMISSION_DENIED / DATA_LOSS map as in
GetSecretByName; every other exception — including the ValueError for a
malformed return_key_type — aborts with INTERNAL.  The response's private_key
is the empty string whenever the service dict carries no (or empty)
private-key bytes. -/
def GetAsymmetricKeyPairByKeyName (E : Bytes → Bytes)
    (dec : Bytes → Option String) (mk : Bytes) (db : List AsymmetricKeyPair)
    (request : GetAsymmetricKeyPairByKeyNameRequest) :
    List AsymmetricKeyPair × Except StatusCode AsymmetricKeyPairPb :=
  if mk.isEmpty then (db, .error .failedPrecondition)
  else
    let return_key_type :=
      if request.return_key_type == "" then "public" else request.return_key_type
    match service.get_asymmetric_key_pair_by_key_name E db request.key_name
        return_key_type with
    | .error .secretNotFoundError => (db, .error .notFound)
    | .error .decryptionError => (db, .error .permissionDenied)
    | .error _ => (db, .error .internal)
    | .ok result =>
      match decode_or_empty dec result.public_key with
      | none => (db, .error .dataLoss)
      | some pub =>
        match result.private_key with
        | none =>
          (db, .ok {
            kid := result.kid, key_name := result.key_name,
            key_type := result.key_type.getD "", public_key := pub,
            private_key := "", created_at := result.created_at,
            mk_version := if result.mk_version == 0 then 1 else result.mk_version,
            is_active := result.is_active })
        | some pk =>
          if pk.isEmpty then
            (db, .ok {
              kid := result.kid, key_name := result.key_name,
              key_type := result.key_type.getD "", public_key := pub,
              private_key := "", created_at := result.created_at,
              mk_version := if result.mk_version == 0 then 1 else result.mk_version,
              is_active := result.is_active })
          else
            match dec pk with
            | none => (db, .error .dataLoss)
            | some priv =>
              (db, .ok {
                kid := result.kid, key_name := result.key_name,
                key_type := result.key_type.getD "", public_key := pub,
                private_key := priv, created_at := result.created_at,
                mk_version := if result.mk_version == 0 then 1 else result.mk_version,
                is_active := result.is_active })

structure CreateSymmetricKeyRequest where
  key_name : String
  key_size : Nat
  key_type : String
  mk_version : Nat
deriving DecidableEq, Repr

/-- Servicer.CreateSymmetricKey: create via the service, then re-fetch the
just-written row through the read path and base64-encode the decrypted key
bytes for the response.  A single generic except clause maps every failure to
INTERNAL. -/
def CreateSymmetricKey (E : Bytes → Bytes) (b64 : Bytes → String)
    (urandom : Nat → Bytes) (mk : Bytes) (iv : Bytes) (kid : String)
    (created_at : Nat) (db : List SymmetricKey)
    (request : CreateSymmetricKeyRequest) :
    List SymmetricKey × Except StatusCode SymmetricKeyPb :=
  if mk.isEmpty then (db, .error .failedPrecondition)
  else
    let mk_version := mkVersionOrOne request.mk_version
    match service.create_symmetric_key E urandom iv kid created_at db
        request.key_size request.key_name mk_version
        (keyTypeOrNone request.key_type) with
    | .error _ => (db, .error .internal)
    | .ok (db1, result) =>
      match service.get_symmetric_key_by_key_name E db1 request.key_name with
      | .error _ => (db1, .error .internal)
      | .ok decrypted =>
        (db1, .ok {
          kid := result.kid,
          key_name := result.key_name,
          key_type := result.key_type.getD "",
          key_value := b64 decrypted.key_value,
          created_at := result.created_at,
          mk_version := if result.mk_version == 0 then mk_version else result.mk_version,
          is_active := result.is_active })

structure GetSymmetricKeyByKeyNameRequest where
  key_name : String
deriving DecidableEq, Repr

/-- Servicer.GetSymmetricKeyByKeyName: NOT_FOUND / PERMISSION_DENIED map as
usual; this handler has no UnicodeDecodeError clause (base64 output always
decodes), everything else aborts with INTERNAL. -/
def GetSymmetricKeyByKeyName (E : Bytes → Bytes) (b64 : Bytes → String)
    (mk : Bytes) (db : List SymmetricKey)
    (request : GetSymmetricKeyByKeyNameRequest) :
    List SymmetricKey × Except StatusCode SymmetricKeyPb :=
  if mk.isEmpty then (db, .error .failedPrecondition)
  else
    match service.get_symmetric_key_by_key_name E db request.key_name with
    | .error .secretNotFoundError => (db, .error .notFound)
    | .error .decryptionError => (db, .error .permissionDenied)
    | .error _ => (db, .error .internal)
    | .ok result =>
      (db, .ok {
        kid := result.kid,
        key_name := result.key_name,
        key_type := result.key_type.getD "",
        key_value := b64 result.key_value,
        created_at := result.created_at,
        mk_version := if result.mk_version == 0 then 1 else result.mk_version,
        is_active := result.is_active })

end rpc

/-! ### Iterated creates (for the single-active invariant) -/

structure CreateSecretArgs where
  kid : String
  key_type : Option String
  value : Bytes
  created_at : Nat
  mk_version : Nat
deriving DecidableEq, Repr

/-- The row crud.create_secret inserts for one argument tuple. -/
def rowOfSecretArgs (key_name : String) (a : CreateSecretArgs) :
    SecretsManagerSecret :=
  { kid := a.kid, key_name := key_name, key_type := a.key_type,
    value := a.value, created_at := a.created_at, mk_version := a.mk_version,
    is_active := true }

/-- N sequential crud.create_secret calls for one key_name. -/
def createSecretMany (db : List SecretsManagerSecret) (key_name : String) :
    List CreateSecretArgs → Except Exc (List SecretsManagerSecret)
  | [] => .ok db
  | a :: rest =>
    match crud.create_secret db a.kid key_name a.key_type a.value
        a.created_at a.mk_version with
    | .error e => .error e
    | .ok (db1, _) => createSecretMany db1 key_name rest

structure CreateSymKeyArgs where
  kid : String
  key_type : Option String
  key_value : Bytes
  created_at : Nat
  mk_version : Nat
deriving DecidableEq, Repr

/-- The row crud.create_symmetric_key inserts for one argument tuple. -/
def rowOfSymKeyArgs (key_name : String) (a : CreateSymKeyArgs) : SymmetricKey :=
  { kid := a.kid, key_name := key_name, key_type := a.key_type,
    key_value := a.key_value, created_at := a.created_at,
    mk_version := a.mk_version, is_active := true }

/-- N sequential crud.create_symmetric_key calls for one key_name. -/
def createSymKeyMany (db : List SymmetricKey) (key_name : String) :
    List CreateSymKeyArgs → Except Exc (List SymmetricKey)
  | [] => .ok db
  | a :: rest =>
    match crud.create_symmetric_key db a.kid key_name a.key_type a.key_value
        a.created_at a.mk_version with
    | .error e => .error e
    | .ok (db1, _) => createSymKeyMany db1 key_name rest

/-- The rows of a store carrying a given key_name (any activity state). -/
def secretsNamed (db : List SecretsManagerSecret) (name : String) :
    List SecretsManagerSecret :=
  db.filter (fun r => r.key_name == name)

def asymNamed (db : List AsymmetricKeyPair) (name : String) :
    List AsymmetricKeyPair :=
  db.filter (fun r => r.key_name == name)

def symNamed (db : List SymmetricKey) (name : String) : List SymmetricKey :=
  db.filter (fun r => r.key_name == name)

end SecretsManager

namespace SecretsManager

lemma zipWith_xor_cancel :
    ∀ (a b : Bytes), a.length ≤ b.length →
      List.zipWith Nat.xor (List.zipWith Nat.xor a b) b = a := by
  intro a
  induction a with
  | nil => intro b _; simp
  | cons x xs ih =>
    intro b hb
    cases b with
    | nil => simp at hb
    | cons y ys =>
      simp only [List.zipWith_cons_cons, List.cons.injEq]
      refine ⟨?_, ih ys (by simpa using hb)⟩
      show x ^^^ y ^^^ y = x
      rw [Nat.xor_assoc, Nat.xor_self, Nat.xor_zero]

lemma cfbEncryptAux_nil (E : Bytes → Bytes) (n : Nat) (sr : Bytes) :
    cfbEncryptAux E n sr [] = [] := by
  cases n <;> rfl

lemma cfbEncryptAux_length (E : Bytes → Bytes)
    (hE : ∀ b, 16 ≤ (E b).length) :
    ∀ (n : Nat) (sr pt : Bytes), pt.length ≤ n →
      (cfbEncryptAux E n sr pt).length = pt.length := by
  intro n
  induction n with
  | zero =>
    intro sr pt hpt
    have : pt = [] := List.length_eq_zero.mp (Nat.le_zero.mp hpt)
    simp [this, cfbEncryptAux_nil]
  | succ n ih =>
    intro sr pt hpt
    cases pt with
    | nil => simp [cfbEncryptAux_nil]
    | cons b bs =>
      have hEsr := hE sr
      have hrest : ((b :: bs).drop 16).length ≤ n := by
        rw [List.length_drop]
        have : (b :: bs).length ≤ n + 1 := hpt
        have h1 : 1 ≤ (b :: bs).length := by simp
        omega
      simp only [cfbEncryptAux, List.length_append, ih _ _ hrest,
        List.length_zipWith, List.length_take, List.length_drop]
      have h1 : 1 ≤ (b :: bs).length := by simp
      omega

lemma cfb_roundtrip (E : Bytes → Bytes) (hE : ∀ b, 16 ≤ (E b).length) :
    ∀ (n : Nat) (sr pt : Bytes), pt.length ≤ n →
      cfbDecryptAux E n sr (cfbEncryptAux E n sr pt) = pt := by
  intro n
  induction n with
  | zero =>
    intro sr pt hpt
    have : pt = [] := List.length_eq_zero.mp (Nat.le_zero.mp hpt)
    simp [this, cfbEncryptAux, cfbDecryptAux]
  | succ n ih =>
    intro sr pt hpt
    cases pt with
    | nil => simp [cfbEncryptAux, cfbDecryptAux]
    | cons b bs =>
      have hEsr := hE sr
      have hlen1 : 1 ≤ (b :: bs).length := by simp
      have hchunklen : ((b :: bs).take 16).length = min 16 (b :: bs).length := by
        rw [List.length_take]
      have hksle : ((b :: bs).take 16).length ≤ (E sr).length := by
        rw [hchunklen]; omega
      have hkslen : (((E sr).take ((b :: bs).take 16).length)).length
          = ((b :: bs).take 16).length := by
        rw [List.length_take]; omega
      have hclen : (List.zipWith Nat.xor ((b :: bs).take 16)
          ((E sr).take ((b :: bs).take 16).length)).length
          = ((b :: bs).take 16).length := by
        rw [List.length_zipWith, hkslen]; omega
      have hrestlen : ((b :: bs).drop 16).length ≤ n := by
        rw [List.length_drop]
        have : (b :: bs).length ≤ n + 1 := hpt
        omega
      -- abbreviations (plain terms, not `set`, to keep simp stable)
      have henc : cfbEncryptAux E (n + 1) sr (b :: bs)
          = List.zipWith Nat.xor ((b :: bs).take 16)
              ((E sr).take ((b :: bs).take 16).length)
            ++ cfbEncryptAux E n
              (List.zipWith Nat.xor ((b :: bs).take 16)
                ((E sr).take ((b :: bs).take 16).length))
              ((b :: bs).drop 16) := rfl
      generalize hcdef : List.zipWith Nat.xor ((b :: bs).take 16)
          ((E sr).take ((b :: bs).take 16).length) = c at *
      generalize htdef : cfbEncryptAux E n c ((b :: bs).drop 16) = tail at *
      have htaillen : tail.length = ((b :: bs).drop 16).length := by
        rw [← htdef]; exact cfbEncryptAux_length E hE n c _ hrestlen
      have hsplit1 : (c ++ tail).take 16 = c := by
        by_cases h16 : 16 ≤ (b :: bs).length
        · have hc16 : c.length = 16 := by rw [hclen, hchunklen]; omega
          rw [List.take_append_of_le_length (by omega), ← hc16, List.take_length]
        · have htailnil : tail = [] := by
            have h0 : tail.length = 0 := by rw [htaillen, List.length_drop]; omega
            exact List.length_eq_zero.mp h0
          rw [htailnil, List.append_nil]
          exact List.take_of_length_le (by rw [hclen, hchunklen]; omega)
      have hsplit2 : (c ++ tail).drop 16 = tail := by
        by_cases h16 : 16 ≤ (b :: bs).length
        · have hc16 : c.length = 16 := by rw [hclen, hchunklen]; omega
          rw [← hc16, List.drop_left]
        · have htailnil : tail = [] := by
            have h0 : tail.length = 0 := by rw [htaillen, List.length_drop]; omega
            exact List.length_eq_zero.mp h0
          rw [htailnil, List.append_nil]
          exact List.drop_eq_nil_of_le (by rw [hclen, hchunklen]; omega)
      obtain ⟨z, zs, hzzs⟩ : ∃ z zs, c = z :: zs := by
        cases hc : c with
        | nil =>
          exfalso
          have h0 : c.length = 0 := by rw [hc]; rfl
          rw [hclen, hchunklen] at h0; omega
        | cons z zs => exact ⟨z, zs, rfl⟩
      have hback : c ++ tail = z :: (zs ++ tail) := by
        rw [hzzs, List.cons_append]
      rw [henc, hback]
      show List.zipWith Nat.xor ((z :: (zs ++ tail)).take 16)
          ((E sr).take ((z :: (zs ++ tail)).take 16).length)
        ++ cfbDecryptAux E n ((z :: (zs ++ tail)).take 16)
            ((z :: (zs ++ tail)).drop 16)
        = b :: bs
      rw [← hback, hsplit1, hsplit2]
      have hks2 : (E sr).take c.length = (E sr).take ((b :: bs).take 16).length := by
        rw [hclen]
      rw [hks2, ← hcdef,
        zipWith_xor_cancel ((b :: bs).take 16) _ (by rw [hkslen])]
      rw [hcdef, ← htdef, ih c _ hrestlen]
      exact List.take_append_drop 16 (b :: bs)

lemma aes_roundtrip (E : Bytes → Bytes) (hE : ∀ b, 16 ≤ (E b).length)
    (iv pt : Bytes) (hiv : iv.length = 16) :
    aes_decrypt_data E (aes_encrypt_data E iv pt) = some pt := by
  unfold aes_encrypt_data aes_decrypt_data
  have htake : (iv ++ cfbEncryptAux E pt.length iv pt).take 16 = iv := by
    rw [← hiv, List.take_left]
  have hdrop : (iv ++ cfbEncryptAux E pt.length iv pt).drop 16
      = cfbEncryptAux E pt.length iv pt := by
    rw [← hiv, List.drop_left]
  simp only [htake, hdrop, CFB_checkIV, hiv, if_pos]
  rw [cfbEncryptAux_length E hE pt.length iv pt (le_refl _)]
  rw [cfb_roundtrip E hE pt.length iv pt (le_refl _)]

lemma aes_encrypt_length (E : Bytes → Bytes) (hE : ∀ b, 16 ≤ (E b).length)
    (iv pt : Bytes) :
    (aes_encrypt_data E iv pt).length = iv.length + pt.length := by
  unfold aes_encrypt_data
  rw [List.length_append, cfbEncryptAux_length E hE pt.length iv pt (le_refl _)]

lemma aes_decrypt_length_lt (E : Bytes → Bytes) (ct : Bytes)
    (h : ct.length < 16) : aes_decrypt_data E ct = none := by
  unfold aes_decrypt_data CFB_checkIV
  have : (ct.take 16).length = ct.length := by
    rw [List.length_take]; omega
  simp only [this]
  rw [if_neg (by omega)]

lemma aes_decrypt_length_ge (E : Bytes → Bytes) (ct : Bytes)
    (h : 16 ≤ ct.length) :
    aes_decrypt_data E ct
      = some (cfbDecryptAux E (ct.drop 16).length (ct.take 16) (ct.drop 16)) := by
  unfold aes_decrypt_data CFB_checkIV
  have : (ct.take 16).length = 16 := by
    rw [List.length_take]; omega
  simp only [this, if_pos]

end SecretsManager

namespace SecretsManager

/-! ### List helper lemmas -/

lemma filter_map_nil {α : Type} (f : α → α) (p : α → Bool)
    (hp : ∀ a, p (f a) = true → p a = true) :
    ∀ l : List α, l.filter p = [] → (l.map f).filter p = [] := by
  intro l hl
  rw [List.filter_eq_nil_iff] at hl ⊢
  intro b hb
  obtain ⟨a, ha, rfl⟩ := List.mem_map.mp hb
  exact fun hpf => hl a ha (hp a hpf)

lemma filter_length_map {α : Type} (f : α → α) (q : α → Bool)
    (hq : ∀ a, q (f a) = q a) :
    ∀ l : List α, ((l.map f).filter q).length = (l.filter q).length := by
  intro l
  induction l with
  | nil => rfl
  | cons a l ih =>
    rw [List.map_cons, List.filter_cons, List.filter_cons, hq a]
    by_cases h : q a = true
    · rw [if_pos h, if_pos h]
      simp [ih]
    · rw [if_neg h, if_neg h]
      exact ih

lemma length_filter_split {α : Type} (p q : α → Bool) :
    ∀ l : List α, (l.filter p).length
      = (l.filter (fun a => p a && q a)).length
        + (l.filter (fun a => p a && !q a)).length := by
  intro l
  induction l with
  | nil => rfl
  | cons a l ih =>
    simp only [List.filter_cons]
    by_cases hp : p a = true
    · by_cases hq : q a = true
      · simp only [hp, hq, Bool.and_self, Bool.not_true, Bool.and_false,
          if_pos, if_neg (by simp : ¬(false = true)), List.length_cons]
        omega
      · have hq' : q a = false := by revert hq; cases q a <;> simp
        simp only [hp, hq', Bool.and_false, Bool.not_false, Bool.and_true,
          Bool.and_self, if_pos, if_neg (by simp : ¬(false = true)),
          List.length_cons]
        omega
    · have hp' : p a = false := by revert hp; cases p a <;> simp
      simp only [hp', Bool.false_and,
        if_neg (by simp : ¬(false = true))]
      exact ih

lemma insertDescBy_length {α : Type} (key : α → Nat) (r : α) :
    ∀ l : List α, (insertDescBy key r l).length = l.length + 1 := by
  intro l
  induction l with
  | nil => rfl
  | cons x xs ih =>
    unfold insertDescBy
    by_cases h : key x < key r
    · rw [if_pos h]; rfl
    · rw [if_neg h]
      simp only [List.length_cons, ih]

lemma sortDescBy_length {α : Type} (key : α → Nat) :
    ∀ l : List α, (sortDescBy key l).length = l.length := by
  intro l
  induction l with
  | nil => rfl
  | cons x xs ih =>
    unfold sortDescBy at ih ⊢
    rw [List.foldr_cons, insertDescBy_length, ih, List.length_cons]

end SecretsManager

namespace SecretsManager

/-! ### Effect of one create on the active set (per record kind) -/

lemma deact_secrets (db : List SecretsManagerSecret) (name : String)
    (o : SecretsManagerSecret) (h : crud.activeSecretsByName db name = [o]) :
    crud.activeSecretsByName
      (db.map fun r => if r.kid == o.kid then { r with is_active := false } else r)
      name = [] := by
  unfold crud.activeSecretsByName at h ⊢
  rw [List.filter_eq_nil_iff]
  intro b hb
  obtain ⟨a, ha, rfl⟩ := List.mem_map.mp hb
  intro hpf
  by_cases hk : (a.kid == o.kid) = true
  · rw [if_pos hk] at hpf
    simp at hpf
  · rw [if_neg hk] at hpf
    have hmem : a ∈ db.filter (fun r => r.key_name == name && r.is_active) :=
      List.mem_filter.mpr ⟨ha, hpf⟩
    rw [h] at hmem
    have hao : a = o := by simpa using hmem
    rw [hao] at hk
    exact hk (beq_self_eq_true _)

lemma deact_asym (db : List AsymmetricKeyPair) (name : String)
    (o : AsymmetricKeyPair) (h : crud.activeAsymByName db name = [o]) :
    crud.activeAsymByName
      (db.map fun r => if r.kid == o.kid then { r with is_active := false } else r)
      name = [] := by
  unfold crud.activeAsymByName at h ⊢
  rw [List.filter_eq_nil_iff]
  intro b hb
  obtain ⟨a, ha, rfl⟩ := List.mem_map.mp hb
  intro hpf
  by_cases hk : (a.kid == o.kid) = true
  · rw [if_pos hk] at hpf
    simp at hpf
  · rw [if_neg hk] at hpf
    have hmem : a ∈ db.filter (fun r => r.key_name == name && r.is_active) :=
      List.mem_filter.mpr ⟨ha, hpf⟩
    rw [h] at hmem
    have hao : a = o := by simpa using hmem
    rw [hao] at hk
    exact hk (beq_self_eq_true _)

lemma deact_sym (db : List SymmetricKey) (name : String)
    (o : SymmetricKey) (h : crud.activeSymByName db name = [o]) :
    crud.activeSymByName
      (db.map fun r => if r.kid == o.kid then { r with is_active := false } else r)
      name = [] := by
  unfold crud.activeSymByName at h ⊢
  rw [List.filter_eq_nil_iff]
  intro b hb
  obtain ⟨a, ha, rfl⟩ := List.mem_map.mp hb
  intro hpf
  by_cases hk : (a.kid == o.kid) = true
  · rw [if_pos hk] at hpf
    simp at hpf
  · rw [if_neg hk] at hpf
    have hmem : a ∈ db.filter (fun r => r.key_name == name && r.is_active) :=
      List.mem_filter.mpr ⟨ha, hpf⟩
    rw [h] at hmem
    have hao : a = o := by simpa using hmem
    rw [hao] at hk
    exact hk (beq_self_eq_true _)


/-- Exhaustive description of one crud.create_secret call: with two or more
active rows for the name the internal lookup raises MultipleResultsFound;
otherwise the call succeeds, the inserted row is the sole active row for the
name afterwards, and the row count for the name grows by one. -/
lemma create_secret_cases (db : List SecretsManagerSecret) (name : String)
    (a : CreateSecretArgs) :
    (2 ≤ (crud.activeSecretsByName db name).length ∧
      crud.create_secret db a.kid name a.key_type a.value a.created_at
        a.mk_version = .error .multipleResultsFound) ∨
    (∃ db1,
      crud.create_secret db a.kid name a.key_type a.value a.created_at
        a.mk_version = .ok (db1, rowOfSecretArgs name a) ∧
      crud.activeSecretsByName db1 name = [rowOfSecretArgs name a] ∧
      (secretsNamed db1 name).length = (secretsNamed db name).length + 1 ∧
      rowOfSecretArgs name a ∈ db1) := by
  have hrowpred : ((rowOfSecretArgs name a).key_name == name
      && (rowOfSecretArgs name a).is_active) = true := by
    simp [rowOfSecretArgs]
  have hrowq : ((rowOfSecretArgs name a).key_name == name) = true := by
    simp [rowOfSecretArgs]
  unfold crud.create_secret crud.get_secret_by_key_name
  cases hfil : crud.activeSecretsByName db name with
  | nil =>
    right
    refine ⟨db ++ [rowOfSecretArgs name a], ?_, ?_, ?_, ?_⟩
    · rfl
    · unfold crud.activeSecretsByName at hfil ⊢
      simp [List.filter_append, hfil, List.filter_cons, hrowpred]
    · unfold secretsNamed
      simp [List.filter_append, List.filter_cons, hrowq]
    · exact List.mem_append_right _ (by simp)
  | cons o rest =>
    cases rest with
    | nil =>
      right
      refine ⟨(db.map fun r =>
          if r.kid == o.kid then { r with is_active := false } else r)
          ++ [rowOfSecretArgs name a], ?_, ?_, ?_, ?_⟩
      · rfl
      · have hdeact := deact_secrets db name o hfil
        unfold crud.activeSecretsByName at hdeact ⊢
        rw [List.filter_append, hdeact, List.nil_append, List.filter_cons,
          if_pos hrowpred, List.filter_nil]
      · unfold secretsNamed
        rw [List.filter_append]
        rw [List.length_append]
        rw [filter_length_map _ _ (fun r => by
          by_cases hk : (r.kid == o.kid) = true
          · rw [if_pos hk]
          · rw [if_neg hk]) db]
        simp [List.filter_cons, hrowq]
      · exact List.mem_append_right _ (by simp)
    | cons o2 rest2 =>
      left
      constructor
      · rw [List.length_cons, List.length_cons]
        omega
      · rfl


lemma scalar_one_or_none_of_two {α : Type} (l : List α) (h : 2 ≤ l.length) :
    scalar_one_or_none l = .error .multipleResultsFound := by
  cases l with
  | nil => simp at h
  | cons x xs =>
    cases xs with
    | nil => simp at h
    | cons y ys => rfl

/-- Exhaustive description of one crud.create_symmetric_key call, analogous
to `create_secret_cases`. -/
lemma create_sym_cases (db : List SymmetricKey) (name : String)
    (a : CreateSymKeyArgs) :
    (2 ≤ (crud.activeSymByName db name).length ∧
      crud.create_symmetric_key db a.kid name a.key_type a.key_value
        a.created_at a.mk_version = .error .multipleResultsFound) ∨
    (∃ db1,
      crud.create_symmetric_key db a.kid name a.key_type a.key_value
        a.created_at a.mk_version = .ok (db1, rowOfSymKeyArgs name a) ∧
      crud.activeSymByName db1 name = [rowOfSymKeyArgs name a] ∧
      (symNamed db1 name).length = (symNamed db name).length + 1 ∧
      rowOfSymKeyArgs name a ∈ db1) := by
  have hrowpred : ((rowOfSymKeyArgs name a).key_name == name
      && (rowOfSymKeyArgs name a).is_active) = true := by
    simp [rowOfSymKeyArgs]
  have hrowq : ((rowOfSymKeyArgs name a).key_name == name) = true := by
    simp [rowOfSymKeyArgs]
  unfold crud.create_symmetric_key crud.get_symmetric_key_by_key_name
  cases hfil : crud.activeSymByName db name with
  | nil =>
    right
    refine ⟨db ++ [rowOfSymKeyArgs name a], ?_, ?_, ?_, ?_⟩
    · rfl
    · unfold crud.activeSymByName at hfil ⊢
      simp [List.filter_append, hfil, List.filter_cons, hrowpred]
    · unfold symNamed
      simp [List.filter_append, List.filter_cons, hrowq]
    · exact List.mem_append_right _ (by simp)
  | cons o rest =>
    cases rest with
    | nil =>
      right
      refine ⟨(db.map fun r =>
          if r.kid == o.kid then { r with is_active := false } else r)
          ++ [rowOfSymKeyArgs name a], ?_, ?_, ?_, ?_⟩
      · rfl
      · have hdeact := deact_sym db name o hfil
        unfold crud.activeSymByName at hdeact ⊢
        rw [List.filter_append, hdeact, List.nil_append, List.filter_cons,
          if_pos hrowpred, List.filter_nil]
      · unfold symNamed
        rw [List.filter_append]
        rw [List.length_append]
        rw [filter_length_map _ _ (fun r => by
          by_cases hk : (r.kid == o.kid) = true
          · rw [if_pos hk]
          · rw [if_neg hk]) db]
        simp [List.filter_cons, hrowq]
      · exact List.mem_append_right _ (by simp)
    | cons o2 rest2 =>
      left
      refine ⟨?_, ?_⟩
      · rw [List.length_cons, List.length_cons]
        omega
      · have hlen : 2 ≤ (sortDescBy (fun r : SymmetricKey => r.created_at)
            (o :: o2 :: rest2)).length := by
          rw [sortDescBy_length, List.length_cons, List.length_cons]
          omega
        rw [scalar_one_or_none_of_two _ hlen]

/-- Exhaustive description of one crud.create_asymmetric_key_pair call,
analogous to `create_secret_cases`. -/
lemma create_asym_cases (db : List AsymmetricKeyPair) (name kid : String)
    (pk pub : Bytes) (ca mkv : Nat) (kt : Option String) :
    (2 ≤ (crud.activeAsymByName db name).length ∧
      crud.create_asymmetric_key_pair db kid name pk pub ca mkv kt
        = .error .multipleResultsFound) ∨
    (∃ db1,
      crud.create_asymmetric_key_pair db kid name pk pub ca mkv kt
        = .ok (db1,
          { kid := kid, key_name := name, key_type := kt, public_key := pub,
            private_key := some pk, created_at := ca, mk_version := mkv,
            is_active := true }) ∧
      crud.activeAsymByName db1 name
        = [{ kid := kid, key_name := name, key_type := kt, public_key := pub,
             private_key := some pk, created_at := ca, mk_version := mkv,
             is_active := true }] ∧
      (asymNamed db1 name).length = (asymNamed db name).length + 1 ∧
      ({ kid := kid, key_name := name, key_type := kt, public_key := pub,
         private_key := some pk, created_at := ca, mk_version := mkv,
         is_active := true } : AsymmetricKeyPair) ∈ db1) := by
  have hrowpred : (({ kid := kid, key_name := name, key_type := kt,
                      public_key := pub, private_key := some pk,
                      created_at := ca, mk_version := mkv,
                      is_active := true } : AsymmetricKeyPair).key_name == name
      && ({ kid := kid, key_name := name, key_type := kt, public_key := pub,
            private_key := some pk, created_at := ca, mk_version := mkv,
            is_active := true } : AsymmetricKeyPair).is_active) = true := by
    simp
  have hrowq : (({ kid := kid, key_name := name, key_type := kt,
                   public_key := pub, private_key := some pk, created_at := ca,
                   mk_version := mkv,
                   is_active := true } : AsymmetricKeyPair).key_name
      == name) = true := by
    simp
  unfold crud.create_asymmetric_key_pair crud.get_asymmetric_key_pair_by_key_name
  cases hfil : crud.activeAsymByName db name with
  | nil =>
    right
    refine ⟨db ++ [{ kid := kid, key_name := name, key_type := kt,
                     public_key := pub, private_key := some pk,
                     created_at := ca, mk_version := mkv,
                     is_active := true }], ?_, ?_, ?_, ?_⟩
    · rfl
    · unfold crud.activeAsymByName at hfil ⊢
      simp [List.filter_append, hfil, List.filter_cons, hrowpred]
    · unfold asymNamed
      simp [List.filter_append, List.filter_cons, hrowq]
    · exact List.mem_append_right _ (by simp)
  | cons o rest =>
    cases rest with
    | nil =>
      right
      refine ⟨(db.map fun r =>
          if r.kid == o.kid then { r with is_active := false } else r)
          ++ [{ kid := kid, key_name := name, key_type := kt,
                public_key := pub, private_key := some pk, created_at := ca,
                mk_version := mkv, is_active := true }], ?_, ?_, ?_, ?_⟩
      · rfl
      · have hdeact := deact_asym db name o hfil
        unfold crud.activeAsymByName at hdeact ⊢
        rw [List.filter_append, hdeact, List.nil_append, List.filter_cons,
          if_pos hrowpred, List.filter_nil]
      · unfold asymNamed
        rw [List.filter_append]
        rw [List.length_append]
        rw [filter_length_map _ _ (fun r => by
          by_cases hk : (r.kid == o.kid) = true
          · rw [if_pos hk]
          · rw [if_neg hk]) db]
        simp [List.filter_cons, hrowq]
      · exact List.mem_append_right _ (by simp)
    | cons o2 rest2 =>
      left
      refine ⟨?_, ?_⟩
      · rw [List.length_cons, List.length_cons]
        omega
      · have hlen : 2 ≤ (sortDescBy (fun r : AsymmetricKeyPair => r.created_at)
            (o :: o2 :: rest2)).length := by
          rw [sortDescBy_length, List.length_cons, List.length_cons]
          omega
        rw [scalar_one_or_none_of_two _ hlen]
        rfl


/-- Invariant carried through a run of sequential crud.create_secret calls:
one active row (the most recently created one) and one more named row per
call. -/
lemma createSecretMany_inv (name : String) :
    ∀ (args : List CreateSecretArgs) (db : List SecretsManagerSecret),
      args ≠ [] → (crud.activeSecretsByName db name).length ≤ 1 →
      ∃ db' last, args.getLast? = some last ∧
        createSecretMany db name args = .ok db' ∧
        crud.activeSecretsByName db' name = [rowOfSecretArgs name last] ∧
        (secretsNamed db' name).length
          = (secretsNamed db name).length + args.length := by
  intro args
  induction args with
  | nil => intro db hne _; exact absurd rfl hne
  | cons a rest ih =>
    intro db _ hdb
    rcases create_secret_cases db name a with ⟨h2, _⟩ | ⟨db1, hok, hact, hcount, _⟩
    · omega
    · have hstep : createSecretMany db name (a :: rest)
          = createSecretMany db1 name rest := by
        conv_lhs => rw [createSecretMany]
        rw [hok]
      cases rest with
      | nil =>
        refine ⟨db1, a, rfl, ?_, hact, ?_⟩
        · rw [hstep]; rfl
        · rw [hcount]; rfl
      | cons b rest2 =>
        have hdb1 : (crud.activeSecretsByName db1 name).length ≤ 1 := by
          rw [hact]; simp
        obtain ⟨db', last, hlast, hrun, hact', hcount'⟩ :=
          ih db1 (by simp) hdb1
        refine ⟨db', last, ?_, ?_, hact', ?_⟩
        · rw [List.getLast?_cons_cons]; exact hlast
        · rw [hstep]; exact hrun
        · rw [hcount', hcount]
          simp only [List.length_cons]
          omega

/-- Same invariant for crud.create_symmetric_key. -/
lemma createSymKeyMany_inv (name : String) :
    ∀ (args : List CreateSymKeyArgs) (db : List SymmetricKey),
      args ≠ [] → (crud.activeSymByName db name).length ≤ 1 →
      ∃ db' last, args.getLast? = some last ∧
        createSymKeyMany db name args = .ok db' ∧
        crud.activeSymByName db' name = [rowOfSymKeyArgs name last] ∧
        (symNamed db' name).length
          = (symNamed db name).length + args.length := by
  intro args
  induction args with
  | nil => intro db hne _; exact absurd rfl hne
  | cons a rest ih =>
    intro db _ hdb
    rcases create_sym_cases db name a with ⟨h2, _⟩ | ⟨db1, hok, hact, hcount, _⟩
    · omega
    · have hstep : createSymKeyMany db name (a :: rest)
          = createSymKeyMany db1 name rest := by
        conv_lhs => rw [createSymKeyMany]
        rw [hok]
      cases rest with
      | nil =>
        refine ⟨db1, a, rfl, ?_, hact, ?_⟩
        · rw [hstep]; rfl
        · rw [hcount]; rfl
      | cons b rest2 =>
        have hdb1 : (crud.activeSymByName db1 name).length ≤ 1 := by
          rw [hact]; simp
        obtain ⟨db', last, hlast, hrun, hact', hcount'⟩ :=
          ih db1 (by simp) hdb1
        refine ⟨db', last, ?_, ?_, hact', ?_⟩
        · rw [List.getLast?_cons_cons]; exact hlast
        · rw [hstep]; exact hrun
        · rw [hcount', hcount]
          simp only [List.length_cons]
          omega

lemma secrets_name_free_nil (db : List SecretsManagerSecret) (name : String)
    (h0 : ∀ r ∈ db, r.key_name ≠ name) :
    crud.activeSecretsByName db name = [] ∧ secretsNamed db name = [] := by
  constructor
  · exact List.filter_eq_nil_iff.mpr (fun r hr => by simp [h0 r hr])
  · exact List.filter_eq_nil_iff.mpr (fun r hr => by simp [h0 r hr])

lemma sym_name_free_nil (db : List SymmetricKey) (name : String)
    (h0 : ∀ r ∈ db, r.key_name ≠ name) :
    crud.activeSymByName db name = [] ∧ symNamed db name = [] := by
  constructor
  · exact List.filter_eq_nil_iff.mpr (fun r hr => by simp [h0 r hr])
  · exact List.filter_eq_nil_iff.mpr (fun r hr => by simp [h0 r hr])


/-! ### Claims -/

/-- C3: for every (16-byte-block) AES instance E determined by a master key
and every plaintext P, decrypting an encryption returns P; aes_encrypt_data
returns the fresh 16-byte IV concatenated with the CFB ciphertext, and
aes_decrypt_data splits the first 16 bytes off as the IV and decrypts the
remainder. -/
theorem C3_round_trip (E : Bytes → Bytes) (hE : ∀ b, (E b).length = 16)
    (iv pt : Bytes) (hiv : iv.length = 16) :
    aes_decrypt_data E (aes_encrypt_data E iv pt) = some pt ∧
    aes_encrypt_data E iv pt = iv ++ cfbEncryptAux E pt.length iv pt ∧
    (aes_encrypt_data E iv pt).take 16 = iv ∧
    (aes_encrypt_data E iv pt).drop 16 = cfbEncryptAux E pt.length iv pt := by
  have hE2 : ∀ b, 16 ≤ (E b).length := fun b => (hE b).ge
  refine ⟨aes_roundtrip E hE2 iv pt hiv, rfl, ?_, ?_⟩
  · unfold aes_encrypt_data
    rw [← hiv, List.take_left]
  · unfold aes_encrypt_data
    rw [← hiv, List.drop_left]

theorem C3_round_trip_witness :
    aes_decrypt_data (fun _ => List.replicate 16 1)
      (aes_encrypt_data (fun _ => List.replicate 16 1)
        (List.replicate 16 0) [7, 8, 9]) = some [7, 8, 9] :=
  (C3_round_trip (fun _ => List.replicate 16 1) (fun _ => by simp)
    (List.replicate 16 0) [7, 8, 9] (by simp)).1

/-- C10: aes_decrypt_data is partial on malformed blobs: a blob shorter than
16 bytes (the empty blob included) leaves a sliced IV shorter than the
16-byte block size, which the CFB mode rejects (the call raises, modelled as
`none`); every blob of length at least 16 reaches decryption and yields a
plaintext. -/
theorem C10_decrypt_short_blob (E : Bytes → Bytes) (ct : Bytes) :
    (ct.length < 16 → aes_decrypt_data E ct = none) ∧
    (16 ≤ ct.length → ∃ pt, aes_decrypt_data E ct = some pt) := by
  refine ⟨aes_decrypt_length_lt E ct, fun h => ⟨_, aes_decrypt_length_ge E ct h⟩⟩

theorem C10_decrypt_short_blob_witness :
    aes_decrypt_data (fun _ => List.replicate 16 1) [0, 1, 2] = none ∧
    aes_decrypt_data (fun _ => List.replicate 16 1) [] = none ∧
    ∃ pt, aes_decrypt_data (fun _ => List.replicate 16 1)
      (List.replicate 16 0) = some pt :=
  ⟨(C10_decrypt_short_blob (fun _ => List.replicate 16 1) [0, 1, 2]).1 (by decide),
   (C10_decrypt_short_blob (fun _ => List.replicate 16 1) []).1 (by decide),
   (C10_decrypt_short_blob (fun _ => List.replicate 16 1)
     (List.replicate 16 0)).2 (by simp)⟩

/-- C4 counterexample: with two active rows for one key_name the repository
lookup does not return the most recent row — it fails with the
MultipleResultsFound error raised by scalar_one_or_none. -/
theorem C4_counterexample :
    crud.get_secret_by_key_name
      [{ kid := "k1", key_name := "a", key_type := none, value := [],
         created_at := 1, mk_version := 1, is_active := true },
       { kid := "k2", key_name := "a", key_type := none, value := [],
         created_at := 2, mk_version := 1, is_active := true }] "a"
      = .error .multipleResultsFound := by decide

/-- C4 amended: when more than one row for the requested key_name has
is_active = true, each of the three repository get-by-key-name operations
fails with MultipleResultsFound (raised by scalar_one_or_none) instead of
returning a row; the created_at ordering never comes into play. -/
theorem C4_amended (dbS : List SecretsManagerSecret)
    (dbA : List AsymmetricKeyPair) (dbY : List SymmetricKey)
    (name rkt : String)
    (hS : 2 ≤ (crud.activeSecretsByName dbS name).length)
    (hA : 2 ≤ (crud.activeAsymByName dbA name).length)
    (hY : 2 ≤ (crud.activeSymByName dbY name).length)
    (hrkt : rkt = "pair" ∨ rkt = "public") :
    crud.get_secret_by_key_name dbS name = .error .multipleResultsFound ∧
    crud.get_asymmetric_key_pair_by_key_name dbA name rkt
      = .error .multipleResultsFound ∧
    crud.get_symmetric_key_by_key_name dbY name
      = .error .multipleResultsFound := by
  refine ⟨?_, ?_, ?_⟩
  · unfold crud.get_secret_by_key_name
    exact scalar_one_or_none_of_two _ hS
  · have hlen : 2 ≤ (sortDescBy (fun r : AsymmetricKeyPair => r.created_at)
        (crud.activeAsymByName dbA name)).length := by
      rw [sortDescBy_length]; exact hA
    have hcont : (["pair", "public"].contains rkt) = true := by
      rcases hrkt with h | h <;> subst h <;> rfl
    simp only [crud.get_asymmetric_key_pair_by_key_name, hcont, Bool.not_true,
      Bool.false_eq_true, if_false]
    rw [scalar_one_or_none_of_two _ hlen]
  · unfold crud.get_symmetric_key_by_key_name
    have hlen : 2 ≤ (sortDescBy (fun r : SymmetricKey => r.created_at)
        (crud.activeSymByName dbY name)).length := by
      rw [sortDescBy_length]; exact hY
    exact scalar_one_or_none_of_two _ hlen

theorem C4_amended_witness :
    crud.get_secret_by_key_name
      [{ kid := "k1", key_name := "a", key_type := none, value := [],
         created_at := 1, mk_version := 1, is_active := true },
       { kid := "k2", key_name := "a", key_type := none, value := [],
         created_at := 2, mk_version := 1, is_active := true }] "a"
      = .error .multipleResultsFound ∧
    crud.get_asymmetric_key_pair_by_key_name
      [{ kid := "k1", key_name := "a", key_type := none, public_key := [],
         private_key := some [], created_at := 1, mk_version := 1,
         is_active := true },
       { kid := "k2", key_name := "a", key_type := none, public_key := [],
         private_key := some [], created_at := 2, mk_version := 1,
         is_active := true }] "a" "pair" = .error .multipleResultsFound ∧
    crud.get_symmetric_key_by_key_name
      [{ kid := "k1", key_name := "a", key_type := none, key_value := [],
         created_at := 1, mk_version := 1, is_active := true },
       { kid := "k2", key_name := "a", key_type := none, key_value := [],
         created_at := 2, mk_version := 1, is_active := true }] "a"
      = .error .multipleResultsFound :=
  C4_amended _ _ _ "a" "pair" (by decide) (by decide) (by decide) (.inl rfl)


/-- C1 counterexample: the record the Service's create_secrets_key returns
carries the persisted ciphertext in its value field, not the caller-supplied
plaintext: with a zero IV and a constant-1 keystream block, creating the
secret [0] returns a record whose value is the 17-byte blob iv ++ [1]. -/
theorem C1_counterexample :
    (service.create_secrets_key (fun _ => List.replicate 16 1)
        (List.replicate 16 0) "kid1" 3 [] "n" [0] 1 none).map
      (fun p => p.2.value) = .ok (List.replicate 16 0 ++ [1]) ∧
    List.replicate 16 0 ++ [1] ≠ [0] := by
  constructor
  · decide
  · decide

/-- C1 amended: on a successful create, the CreateSecret RPC response's value
field does equal the caller-supplied plaintext (the handler echoes
request.value and performs no decryption), but the record returned by the
Service's create_secrets_key carries the ciphertext that was persisted — the
encryption of the caller's value — in its value field, not the plaintext. -/
theorem C1_amended (E : Bytes → Bytes) (enc : String → Bytes) (mk iv : Bytes)
    (kid : String) (created_at : Nat) (db : List SecretsManagerSecret)
    (req : rpc.CreateSecretRequest)
    (hmk : mk.isEmpty = false)
    (hdb : (crud.activeSecretsByName db req.key_name).length ≤ 1) :
    ∃ db1 row,
      service.create_secrets_key E iv kid created_at db req.key_name
          (enc req.value) (rpc.mkVersionOrOne req.mk_version)
          (rpc.keyTypeOrNone req.key_type) = .ok (db1, row) ∧
      row.value = aes_encrypt_data E iv (enc req.value) ∧
      row ∈ db1 ∧
      (rpc.CreateSecret E enc mk iv kid created_at db req).1 = db1 ∧
      ∃ resp, (rpc.CreateSecret E enc mk iv kid created_at db req).2
          = .ok resp ∧
        resp.value = req.value := by
  rcases create_secret_cases db req.key_name
      ⟨kid, rpc.keyTypeOrNone req.key_type,
        aes_encrypt_data E iv (enc req.value), created_at,
        rpc.mkVersionOrOne req.mk_version⟩
    with ⟨h2, _⟩ | ⟨db1, hok, _, _, hmem⟩
  · omega
  · have hsvc : service.create_secrets_key E iv kid created_at db req.key_name
        (enc req.value) (rpc.mkVersionOrOne req.mk_version)
        (rpc.keyTypeOrNone req.key_type)
        = .ok (db1, rowOfSecretArgs req.key_name
            ⟨kid, rpc.keyTypeOrNone req.key_type,
              aes_encrypt_data E iv (enc req.value), created_at,
              rpc.mkVersionOrOne req.mk_version⟩) := hok
    refine ⟨db1, _, hsvc, rfl, hmem, ?_, ?_⟩
    · simp [rpc.CreateSecret, hmk, hsvc]
    · have hrpc : (rpc.CreateSecret E enc mk iv kid created_at db req).2
          = .ok { kid := kid, key_name := req.key_name,
                  key_type := (rpc.keyTypeOrNone req.key_type).getD "",
                  value := req.value, created_at := created_at,
                  mk_version := rpc.mkVersionOrOne req.mk_version,
                  is_active := true } := by
        simp [rpc.CreateSecret, hmk, hsvc, rowOfSecretArgs, ite_self]
      exact ⟨_, hrpc, rfl⟩

theorem C1_amended_witness :
    ∃ db1 row,
      service.create_secrets_key (fun _ => List.replicate 16 1)
          (List.replicate 16 0) "kid1" 3 [] "n"
          ((fun v => (v.toUTF8.toList.map (fun b => (b.toNat : Nat)))) "x")
          (rpc.mkVersionOrOne 0) (rpc.keyTypeOrNone "") = .ok (db1, row) ∧
      row.value = aes_encrypt_data (fun _ => List.replicate 16 1)
        (List.replicate 16 0)
        ((fun v => (v.toUTF8.toList.map (fun b => (b.toNat : Nat)))) "x") ∧
      row ∈ db1 ∧
      (rpc.CreateSecret (fun _ => List.replicate 16 1)
        (fun v => (v.toUTF8.toList.map (fun b => (b.toNat : Nat)))) [9]
        (List.replicate 16 0) "kid1" 3 []
        { key_name := "n", value := "x", key_type := "", mk_version := 0 }).1
        = db1 ∧
      ∃ resp, (rpc.CreateSecret (fun _ => List.replicate 16 1)
          (fun v => (v.toUTF8.toList.map (fun b => (b.toNat : Nat)))) [9]
          (List.replicate 16 0) "kid1" 3 []
          { key_name := "n", value := "x", key_type := "", mk_version := 0 }).2
          = .ok resp ∧
        resp.value = "x" :=
  C1_amended (fun _ => List.replicate 16 1)
    (fun v => (v.toUTF8.toList.map (fun b => (b.toNat : Nat)))) [9]
    (List.replicate 16 0) "kid1" 3 []
    { key_name := "n", value := "x", key_type := "", mk_version := 0 }
    (by decide) (by decide)

/-- C5 counterexample: a GetAsymmetricKeyPairByKeyName call with
return_key_type = "bad" fails with INTERNAL, not INVALID_ARGUMENT: the
ValueError raised by the repository is caught by the handler's generic
except clause. -/
theorem C5_counterexample :
    (rpc.GetAsymmetricKeyPairByKeyName (fun _ => List.replicate 16 1)
        (fun _ => some "") [9] []
        { key_name := "a", return_key_type := "bad" }).2
      = .error .internal ∧
    StatusCode.internal ≠ StatusCode.invalidArgument := by
  constructor
  · decide
  · decide

/-- C5 amended: for every GetAsymmetricKeyPairByKeyName call whose
return_key_type is neither "public" nor "pair" (and non-empty, since the
empty string defaults to "public"), the call fails with INTERNAL: the
repository raises ValueError, and the handler maps it with its generic
except clause; no INVALID_ARGUMENT mapping exists on this path. -/
theorem C5_amended (E : Bytes → Bytes) (dec : Bytes → Option String)
    (mk : Bytes) (db : List AsymmetricKeyPair)
    (req : rpc.GetAsymmetricKeyPairByKeyNameRequest)
    (hmk : mk.isEmpty = false)
    (h1 : req.return_key_type ≠ "")
    (h2 : req.return_key_type ≠ "public")
    (h3 : req.return_key_type ≠ "pair") :
    (rpc.GetAsymmetricKeyPairByKeyName E dec mk db req).2
      = .error .internal := by
  have hne : (req.return_key_type == "") = false := beq_eq_false_iff_ne.mpr h1
  simp [rpc.GetAsymmetricKeyPairByKeyName, hmk, hne,
    service.get_asymmetric_key_pair_by_key_name,
    crud.get_asymmetric_key_pair_by_key_name, h2, h3]

theorem C5_amended_witness :
    (rpc.GetAsymmetricKeyPairByKeyName (fun _ => List.replicate 16 1)
        (fun _ => some "") [9] []
        { key_name := "a", return_key_type := "nope" }).2
      = .error .internal :=
  C5_amended (fun _ => List.replicate 16 1) (fun _ => some "") [9] []
    { key_name := "a", return_key_type := "nope" }
    (by decide) (by decide) (by decide) (by decide)


/-- C8: a return_key_type of "public" (or unset, which defaults to "public")
never lets private-key material into the result, at all three levels: the
repository nulls the private-key attribute, the service's record keeps it
None (no decryption of it is attempted), and the RPC response's private_key
field is the empty string. -/
theorem C8_public_never_includes_private (E : Bytes → Bytes)
    (dec : Bytes → Option String) (mk : Bytes) (db : List AsymmetricKeyPair)
    (req : rpc.GetAsymmetricKeyPairByKeyNameRequest)
    (hmk : mk.isEmpty = false)
    (hrkt : req.return_key_type = "public" ∨ req.return_key_type = "") :
    (∀ r, crud.get_asymmetric_key_pair_by_key_name db req.key_name "public"
        = .ok (some r) → r.private_key = none) ∧
    (∀ rec, service.get_asymmetric_key_pair_by_key_name E db req.key_name
        "public" = .ok rec → rec.private_key = none) ∧
    (∀ resp, (rpc.GetAsymmetricKeyPairByKeyName E dec mk db req).2 = .ok resp
        → resp.private_key = "") := by
  have hcrud : ∀ r, crud.get_asymmetric_key_pair_by_key_name db req.key_name
      "public" = .ok (some r) → r.private_key = none := by
    intro r hr
    unfold crud.get_asymmetric_key_pair_by_key_name at hr
    cases hq : scalar_one_or_none (sortDescBy
        (fun r : AsymmetricKeyPair => r.created_at)
        (crud.activeAsymByName db req.key_name)) with
    | error e => rw [hq] at hr; simp at hr
    | ok old =>
      cases old with
      | none => rw [hq] at hr; simp at hr
      | some kp =>
        rw [hq] at hr
        simp at hr
        subst hr
        rfl
  have hsvc : ∀ rec, service.get_asymmetric_key_pair_by_key_name E db
      req.key_name "public" = .ok rec → rec.private_key = none := by
    intro rec hrec
    unfold service.get_asymmetric_key_pair_by_key_name at hrec
    cases hc : crud.get_asymmetric_key_pair_by_key_name db req.key_name
        "public" with
    | error e => rw [hc] at hrec; simp at hrec
    | ok old =>
      cases old with
      | none => rw [hc] at hrec; simp at hrec
      | some kp =>
        rw [hc] at hrec
        simp at hrec
        have hkp := hcrud kp hc
        cases hd : aes_decrypt_data E kp.public_key with
        | none => rw [hd] at hrec; simp at hrec
        | some pub =>
          rw [hd] at hrec
          simp at hrec
          subst hrec
          simpa using hkp
  refine ⟨hcrud, hsvc, ?_⟩
  intro resp hresp
  have hdef : (if req.return_key_type == "" then "public"
      else req.return_key_type) = "public" := by
    rcases hrkt with h | h
    · rw [h]
      rfl
    · rw [h]
      rfl
  unfold rpc.GetAsymmetricKeyPairByKeyName at hresp
  rw [hmk, hdef] at hresp
  simp only [Bool.false_eq_true, if_false] at hresp
  cases hs : service.get_asymmetric_key_pair_by_key_name E db req.key_name
      "public" with
  | error e => rw [hs] at hresp; cases e <;> simp at hresp
  | ok result =>
    rw [hs] at hresp
    simp at hresp
    have hres := hsvc result hs
    rw [hres] at hresp
    cases hdo : decode_or_empty dec result.public_key with
    | none => rw [hdo] at hresp; simp at hresp
    | some pub =>
      rw [hdo] at hresp
      simp at hresp
      subst hresp
      rfl

theorem C8_public_never_includes_private_witness :
    ((∀ r, crud.get_asymmetric_key_pair_by_key_name
        [{ kid := "k1", key_name := "a", key_type := none,
           public_key := List.replicate 16 0, private_key := some [5],
           created_at := 1, mk_version := 1, is_active := true }] "a" "public"
        = .ok (some r) → r.private_key = none) ∧
    (∀ rec, service.get_asymmetric_key_pair_by_key_name
        (fun _ => List.replicate 16 1)
        [{ kid := "k1", key_name := "a", key_type := none,
           public_key := List.replicate 16 0, private_key := some [5],
           created_at := 1, mk_version := 1, is_active := true }] "a"
        "public" = .ok rec → rec.private_key = none) ∧
    (∀ resp, (rpc.GetAsymmetricKeyPairByKeyName (fun _ => List.replicate 16 1)
        (fun _ => some "pem") [9]
        [{ kid := "k1", key_name := "a", key_type := none,
           public_key := List.replicate 16 0, private_key := some [5],
           created_at := 1, mk_version := 1, is_active := true }]
        { key_name := "a", return_key_type := "public" }).2 = .ok resp
        → resp.private_key = "")) ∧
    (rpc.GetAsymmetricKeyPairByKeyName (fun _ => List.replicate 16 1)
        (fun _ => some "pem") [9]
        [{ kid := "k1", key_name := "a", key_type := none,
           public_key := List.replicate 16 0, private_key := some [5],
           created_at := 1, mk_version := 1, is_active := true }]
        { key_name := "a", return_key_type := "public" }).2
      = .ok { kid := "k1", key_name := "a", key_type := "", public_key := "",
              private_key := "", created_at := 1, mk_version := 1,
              is_active := true } :=
  ⟨C8_public_never_includes_private (fun _ => List.replicate 16 1)
    (fun _ => some "pem") [9]
    [{ kid := "k1", key_name := "a", key_type := none,
       public_key := List.replicate 16 0, private_key := some [5],
       created_at := 1, mk_version := 1, is_active := true }]
    { key_name := "a", return_key_type := "public" }
    (by decide) (.inl rfl), by decide⟩


/-- C2: starting from a store holding no rows for the key_name, after N ≥ 1
sequential creates for that key_name (shown for the secret and symmetric-key
kinds, the ones the repository create functions triplicate), exactly one of
the N rows for the name is active — the most recently created one — the other
N − 1 rows are inactive, and the get-by-key-name lookup returns exactly the
active row. -/
theorem C2_single_active (name : String)
    (dbS : List SecretsManagerSecret) (argsS : List CreateSecretArgs)
    (dbY : List SymmetricKey) (argsY : List CreateSymKeyArgs)
    (hS0 : ∀ r ∈ dbS, r.key_name ≠ name) (hSne : argsS ≠ [])
    (hY0 : ∀ r ∈ dbY, r.key_name ≠ name) (hYne : argsY ≠ []) :
    (∃ db' last, argsS.getLast? = some last ∧
      createSecretMany dbS name argsS = .ok db' ∧
      crud.activeSecretsByName db' name = [rowOfSecretArgs name last] ∧
      (secretsNamed db' name).length = argsS.length ∧
      (db'.filter (fun r => (r.key_name == name) && !r.is_active)).length
        = argsS.length - 1 ∧
      crud.get_secret_by_key_name db' name
        = .ok (some (rowOfSecretArgs name last))) ∧
    (∃ db' last, argsY.getLast? = some last ∧
      createSymKeyMany dbY name argsY = .ok db' ∧
      crud.activeSymByName db' name = [rowOfSymKeyArgs name last] ∧
      (symNamed db' name).length = argsY.length ∧
      (db'.filter (fun r => (r.key_name == name) && !r.is_active)).length
        = argsY.length - 1 ∧
      crud.get_symmetric_key_by_key_name db' name
        = .ok (some (rowOfSymKeyArgs name last))) := by
  constructor
  · obtain ⟨hact0, hnamed0⟩ := secrets_name_free_nil dbS name hS0
    obtain ⟨db', last, hlast, hrun, hact, hcount⟩ :=
      createSecretMany_inv name argsS dbS hSne (by rw [hact0]; simp)
    have hnamedlen : (secretsNamed db' name).length = argsS.length := by
      rw [hcount, hnamed0]
      simp
    have hsplit := length_filter_split
      (fun r : SecretsManagerSecret => r.key_name == name)
      (fun r => r.is_active) db'
    beta_reduce at hsplit
    have hactterm : List.filter
        (fun r : SecretsManagerSecret => r.key_name == name && r.is_active) db'
        = crud.activeSecretsByName db' name := rfl
    rw [hactterm, hact] at hsplit
    have hnamedterm : List.filter
        (fun r : SecretsManagerSecret => r.key_name == name) db'
        = secretsNamed db' name := rfl
    rw [hnamedterm, hnamedlen, List.length_cons, List.length_nil] at hsplit
    refine ⟨db', last, hlast, hrun, hact, hnamedlen, by omega, ?_⟩
    unfold crud.get_secret_by_key_name
    rw [hact]
    rfl
  · obtain ⟨hact0, hnamed0⟩ := sym_name_free_nil dbY name hY0
    obtain ⟨db', last, hlast, hrun, hact, hcount⟩ :=
      createSymKeyMany_inv name argsY dbY hYne (by rw [hact0]; simp)
    have hnamedlen : (symNamed db' name).length = argsY.length := by
      rw [hcount, hnamed0]
      simp
    have hsplit := length_filter_split
      (fun r : SymmetricKey => r.key_name == name)
      (fun r => r.is_active) db'
    beta_reduce at hsplit
    have hactterm : List.filter
        (fun r : SymmetricKey => r.key_name == name && r.is_active) db'
        = crud.activeSymByName db' name := rfl
    rw [hactterm, hact] at hsplit
    have hnamedterm : List.filter
        (fun r : SymmetricKey => r.key_name == name) db'
        = symNamed db' name := rfl
    rw [hnamedterm, hnamedlen, List.length_cons, List.length_nil] at hsplit
    refine ⟨db', last, hlast, hrun, hact, hnamedlen, by omega, ?_⟩
    unfold crud.get_symmetric_key_by_key_name
    rw [hact]
    rfl

theorem C2_single_active_witness :
    (∃ db' last,
      [(⟨"k1", none, [7], 1, 1⟩ : CreateSecretArgs),
       (⟨"k2", none, [8], 2, 1⟩ : CreateSecretArgs)].getLast? = some last ∧
      createSecretMany [] "n"
        [(⟨"k1", none, [7], 1, 1⟩ : CreateSecretArgs),
         (⟨"k2", none, [8], 2, 1⟩ : CreateSecretArgs)] = .ok db' ∧
      crud.activeSecretsByName db' "n" = [rowOfSecretArgs "n" last] ∧
      (secretsNamed db' "n").length
        = [(⟨"k1", none, [7], 1, 1⟩ : CreateSecretArgs),
           (⟨"k2", none, [8], 2, 1⟩ : CreateSecretArgs)].length ∧
      (db'.filter (fun r => (r.key_name == "n") && !r.is_active)).length
        = [(⟨"k1", none, [7], 1, 1⟩ : CreateSecretArgs),
           (⟨"k2", none, [8], 2, 1⟩ : CreateSecretArgs)].length - 1 ∧
      crud.get_secret_by_key_name db' "n"
        = .ok (some (rowOfSecretArgs "n" last))) ∧
    (∃ db' last,
      [(⟨"s1", none, [9], 1, 1⟩ : CreateSymKeyArgs)].getLast? = some last ∧
      createSymKeyMany [] "n"
        [(⟨"s1", none, [9], 1, 1⟩ : CreateSymKeyArgs)] = .ok db' ∧
      crud.activeSymByName db' "n" = [rowOfSymKeyArgs "n" last] ∧
      (symNamed db' "n").length
        = [(⟨"s1", none, [9], 1, 1⟩ : CreateSymKeyArgs)].length ∧
      (db'.filter (fun r => (r.key_name == "n") && !r.is_active)).length
        = [(⟨"s1", none, [9], 1, 1⟩ : CreateSymKeyArgs)].length - 1 ∧
      crud.get_symmetric_key_by_key_name db' "n"
        = .ok (some (rowOfSymKeyArgs "n" last))) :=
  C2_single_active "n" []
    [(⟨"k1", none, [7], 1, 1⟩ : CreateSecretArgs),
     (⟨"k2", none, [8], 2, 1⟩ : CreateSecretArgs)] []
    [(⟨"s1", none, [9], 1, 1⟩ : CreateSymKeyArgs)]
    (by intro r hr; cases hr) (by simp)
    (by intro r hr; cases hr) (by simp)


/-- After a successful service.create_asymmetric_key_pair, the re-fetch of the
just-written row through the read path with return_key_type = 'pair' decrypts
back to the generated PEMs; a call on a store with two or more active rows
fails already inside the create with MultipleResultsFound. -/
lemma create_asym_then_refetch (E : Bytes → Bytes)
    (hE : ∀ b, 16 ≤ (E b).length) (ivPriv ivPub : Bytes)
    (hivPriv : ivPriv.length = 16) (hivPub : ivPub.length = 16)
    (kid : String) (created_at : Nat) (pemPriv pemPub : Bytes)
    (db : List AsymmetricKeyPair) (name : String) (mkv : Nat)
    (kt : Option String) :
    (2 ≤ (crud.activeAsymByName db name).length ∧
      service.create_asymmetric_key_pair E ivPriv ivPub kid created_at pemPriv
        pemPub db name mkv kt = .error .multipleResultsFound) ∨
    (∃ db1 row,
      service.create_asymmetric_key_pair E ivPriv ivPub kid created_at pemPriv
        pemPub db name mkv kt = .ok (db1, row) ∧
      row ∈ db1 ∧
      row.public_key = aes_encrypt_data E ivPub pemPub ∧
      row.private_key = some (aes_encrypt_data E ivPriv pemPriv) ∧
      row.kid = kid ∧ row.key_name = name ∧ row.key_type = kt ∧
      row.created_at = created_at ∧ row.mk_version = mkv ∧
      row.is_active = true ∧
      service.get_asymmetric_key_pair_by_key_name E db1 name "pair"
        = .ok { row with public_key := pemPub,
                         private_key := some pemPriv }) := by
  rcases create_asym_cases db name kid (aes_encrypt_data E ivPriv pemPriv)
      (aes_encrypt_data E ivPub pemPub) created_at mkv kt with
    ⟨h2, herr⟩ | ⟨db1, hok, hact, _, hmem⟩
  · exact .inl ⟨h2, herr⟩
  · right
    refine ⟨db1, _, hok, hmem, rfl, rfl, rfl, rfl, rfl, rfl, rfl, rfl, ?_⟩
    have hcrudget : crud.get_asymmetric_key_pair_by_key_name db1 name "pair"
        = .ok (some { kid := kid, key_name := name, key_type := kt,
                      public_key := aes_encrypt_data E ivPub pemPub,
                      private_key := some (aes_encrypt_data E ivPriv pemPriv),
                      created_at := created_at, mk_version := mkv,
                      is_active := true }) := by
      unfold crud.get_asymmetric_key_pair_by_key_name
      rw [hact]
      rfl
    have hdecPub : aes_decrypt_data E (aes_encrypt_data E ivPub pemPub)
        = some pemPub := aes_roundtrip E hE ivPub pemPub hivPub
    have hdecPriv : aes_decrypt_data E (aes_encrypt_data E ivPriv pemPriv)
        = some pemPriv := aes_roundtrip E hE ivPriv pemPriv hivPriv
    unfold service.get_asymmetric_key_pair_by_key_name
    rw [hcrudget]
    simp [hdecPub, hdecPriv]

/-- After a successful service.create_symmetric_key, the re-fetch of the
just-written row decrypts back to the generated raw key bytes. -/
lemma create_sym_then_refetch (E : Bytes → Bytes)
    (hE : ∀ b, 16 ≤ (E b).length) (urandom : Nat → Bytes) (iv : Bytes)
    (hiv : iv.length = 16) (kid : String) (created_at : Nat)
    (db : List SymmetricKey) (key_size : Nat) (name : String) (mkv : Nat)
    (kt : Option String) :
    (2 ≤ (crud.activeSymByName db name).length ∧
      service.create_symmetric_key E urandom iv kid created_at db key_size
        name mkv kt = .error .multipleResultsFound) ∨
    (∃ db1 row,
      service.create_symmetric_key E urandom iv kid created_at db key_size
        name mkv kt = .ok (db1, row) ∧
      row ∈ db1 ∧
      row.key_value = aes_encrypt_data E iv (urandom key_size) ∧
      service.get_symmetric_key_by_key_name E db1 name
        = .ok { row with key_value := urandom key_size }) := by
  rcases create_sym_cases db name
      ⟨kid, kt, aes_encrypt_data E iv (urandom key_size), created_at, mkv⟩ with
    ⟨h2, herr⟩ | ⟨db1, hok, hact, _, hmem⟩
  · exact .inl ⟨h2, herr⟩
  · right
    refine ⟨db1, _, hok, hmem, rfl, ?_⟩
    have hcrudget : crud.get_symmetric_key_by_key_name db1 name
        = .ok (some (rowOfSymKeyArgs name
            ⟨kid, kt, aes_encrypt_data E iv (urandom key_size), created_at,
              mkv⟩)) := by
      unfold crud.get_symmetric_key_by_key_name
      rw [hact]
      rfl
    have hdec : aes_decrypt_data E (aes_encrypt_data E iv (urandom key_size))
        = some (urandom key_size) := aes_roundtrip E hE iv _ hiv
    unfold service.get_symmetric_key_by_key_name
    rw [hcrudget]
    simp [rowOfSymKeyArgs, hdec]


/-- C9: generate_symmetric_key returns exactly key_size random bytes (the
os.urandom contract), and after create_symmetric_key with key_size = 32 under
master key K1 (block cipher E), the lookup under K1 returns exactly the same
32 raw bytes: encryption prepends the 16-byte IV, decryption removes it. -/
theorem C9_symmetric_key_sizes (E : Bytes → Bytes) (urandom : Nat → Bytes)
    (hE : ∀ b, (E b).length = 16) (hU : ∀ n, (urandom n).length = n)
    (iv : Bytes) (hiv : iv.length = 16) (kid : String) (created_at : Nat)
    (db : List SymmetricKey) (name : String) (key_size : Nat) (mkv : Nat)
    (kt : Option String)
    (hdb : (crud.activeSymByName db name).length ≤ 1) :
    (generate_symmetric_key urandom kid created_at key_size).key.length
      = key_size ∧
    ∃ db1 row rec,
      service.create_symmetric_key E urandom iv kid created_at db 32 name
        mkv kt = .ok (db1, row) ∧
      row.key_value = aes_encrypt_data E iv (urandom 32) ∧
      service.get_symmetric_key_by_key_name E db1 name = .ok rec ∧
      rec.key_value = urandom 32 ∧
      rec.key_value.length = 32 := by
  refine ⟨by simp [generate_symmetric_key, hU], ?_⟩
  rcases create_sym_then_refetch E (fun b => (hE b).ge) urandom iv hiv kid
      created_at db 32 name mkv kt with ⟨h2, _⟩ | ⟨db1, row, hok, _, hval, hget⟩
  · omega
  · exact ⟨db1, row, _, hok, hval, hget, rfl, by simp [hU]⟩

theorem C9_symmetric_key_sizes_witness :
    ((generate_symmetric_key (fun n => List.replicate n 0) "s1" 1 32).key.length
      = 32 ∧
    ∃ db1 row rec,
      service.create_symmetric_key (fun _ => List.replicate 16 1)
        (fun n => List.replicate n 0) (List.replicate 16 2) "s1" 1 [] 32
        "aes1" 1 none = .ok (db1, row) ∧
      row.key_value = aes_encrypt_data (fun _ => List.replicate 16 1)
        (List.replicate 16 2) ((fun n => List.replicate n 0) 32) ∧
      service.get_symmetric_key_by_key_name (fun _ => List.replicate 16 1)
        db1 "aes1" = .ok rec ∧
      rec.key_value = (fun n => List.replicate n 0) 32 ∧
      rec.key_value.length = 32) :=
  C9_symmetric_key_sizes (fun _ => List.replicate 16 1)
    (fun n => List.replicate n 0) (fun _ => by simp) (fun n => by simp)
    (List.replicate 16 2) (by simp) "s1" 1 [] "aes1" 32 1 none (by decide)

/-- C7: for every CreateAsymmetricKeyPair call starting from a store with at
most one active row for the name, the encrypted row is persisted, the
just-written row is re-fetched through the read path and decrypted back to
the generated plaintext PEMs, and those are what the response carries; if the
post-persist stage (the decode of the re-decrypted PEMs) fails, the whole
call fails with an error while the new encrypted row remains in the store —
nothing is rolled back. -/
theorem C7_create_asym_refetch_persists (E : Bytes → Bytes)
    (dec : Bytes → Option String) (mk : Bytes) (ivPriv ivPub : Bytes)
    (kid : String) (created_at : Nat) (pemPriv pemPub : Bytes)
    (db : List AsymmetricKeyPair) (req : rpc.CreateAsymmetricKeyPairRequest)
    (hmk : mk.isEmpty = false) (hE : ∀ b, 16 ≤ (E b).length)
    (hivPriv : ivPriv.length = 16) (hivPub : ivPub.length = 16)
    (hdb : (crud.activeAsymByName db req.key_name).length ≤ 1) :
    ∃ db1 row,
      service.create_asymmetric_key_pair E ivPriv ivPub kid created_at
        pemPriv pemPub db req.key_name (rpc.mkVersionOrOne req.mk_version)
        (rpc.keyTypeOrNone req.key_type) = .ok (db1, row) ∧
      row ∈ db1 ∧
      row.public_key = aes_encrypt_data E ivPub pemPub ∧
      row.private_key = some (aes_encrypt_data E ivPriv pemPriv) ∧
      service.get_asymmetric_key_pair_by_key_name E db1 req.key_name "pair"
        = .ok { row with public_key := pemPub, private_key := some pemPriv } ∧
      (rpc.CreateAsymmetricKeyPair E dec mk ivPriv ivPub kid created_at
        pemPriv pemPub db req).1 = db1 ∧
      (∀ pub priv, decode_or_empty dec pemPub = some pub →
        decode_or_empty dec pemPriv = some priv →
        ∃ resp, (rpc.CreateAsymmetricKeyPair E dec mk ivPriv ivPub kid
            created_at pemPriv pemPub db req).2 = .ok resp ∧
          resp.public_key = pub ∧ resp.private_key = priv) ∧
      ((decode_or_empty dec pemPub = none ∨ decode_or_empty dec pemPriv = none)
        → (rpc.CreateAsymmetricKeyPair E dec mk ivPriv ivPub kid created_at
            pemPriv pemPub db req).2 = .error .internal) := by
  rcases create_asym_then_refetch E hE ivPriv ivPub hivPriv hivPub kid
      created_at pemPriv pemPub db req.key_name
      (rpc.mkVersionOrOne req.mk_version) (rpc.keyTypeOrNone req.key_type)
    with ⟨h2, _⟩ | ⟨db1, row, hok, hmem, hpub, hpriv, _, _, _, _, _, _, hget⟩
  · omega
  · have hrpc : rpc.CreateAsymmetricKeyPair E dec mk ivPriv ivPub kid
        created_at pemPriv pemPub db req
        = (match decode_or_empty dec pemPub with
            | none => (db1, .error .internal)
            | some pub =>
              match decode_or_empty dec pemPriv with
              | none => (db1, .error .internal)
              | some priv =>
                (db1,
                  .ok { kid := row.kid, key_name := row.key_name,
                        key_type := row.key_type.getD "", public_key := pub,
                        private_key := priv, created_at := row.created_at,
                        mk_version := if row.mk_version == 0
                          then rpc.mkVersionOrOne req.mk_version
                          else row.mk_version,
                        is_active := row.is_active })) := by
      simp only [rpc.CreateAsymmetricKeyPair, hmk, Bool.false_eq_true,
        if_false, hok, hget, Option.getD_some]
    refine ⟨db1, row, hok, hmem, hpub, hpriv, hget, ?_, ?_, ?_⟩
    · rw [hrpc]
      cases decode_or_empty dec pemPub with
      | none => rfl
      | some pub =>
        cases decode_or_empty dec pemPriv with
        | none => rfl
        | some priv => rfl
    · intro pub priv h1 h2
      rw [hrpc]
      simp only [h1, h2]
      exact ⟨_, rfl, rfl, rfl⟩
    · intro h
      rcases h with h | h
      · rw [hrpc]
        simp only [h]
      · rw [hrpc]
        cases hdo : decode_or_empty dec pemPub with
        | none => simp only [hdo]
        | some pub => simp only [hdo, h]

theorem C7_create_asym_refetch_persists_witness :
    (∃ db1 row,
      service.create_asymmetric_key_pair (fun _ => List.replicate 16 1)
        (List.replicate 16 2) (List.replicate 16 3) "k1" 5 [80] [81] []
        "rsa" (rpc.mkVersionOrOne 0) (rpc.keyTypeOrNone "") = .ok (db1, row) ∧
      row ∈ db1 ∧
      row.public_key = aes_encrypt_data (fun _ => List.replicate 16 1)
        (List.replicate 16 3) [81] ∧
      row.private_key = some (aes_encrypt_data (fun _ => List.replicate 16 1)
        (List.replicate 16 2) [80]) ∧
      service.get_asymmetric_key_pair_by_key_name (fun _ => List.replicate 16 1)
        db1 "rsa" "pair"
        = .ok { row with public_key := [81], private_key := some [80] } ∧
      (rpc.CreateAsymmetricKeyPair (fun _ => List.replicate 16 1)
        (fun _ => some "pem") [9] (List.replicate 16 2) (List.replicate 16 3)
        "k1" 5 [80] [81] []
        { key_name := "rsa", key_size := 16, key_type := "", mk_version := 0 }).1
        = db1 ∧
      (∀ pub priv, decode_or_empty (fun _ => some "pem") [81] = some pub →
        decode_or_empty (fun _ => some "pem") [80] = some priv →
        ∃ resp, (rpc.CreateAsymmetricKeyPair (fun _ => List.replicate 16 1)
            (fun _ => some "pem") [9] (List.replicate 16 2)
            (List.replicate 16 3) "k1" 5 [80] [81] []
            { key_name := "rsa", key_size := 16, key_type := "",
              mk_version := 0 }).2 = .ok resp ∧
          resp.public_key = pub ∧ resp.private_key = priv) ∧
      ((decode_or_empty (fun _ => some "pem") [81] = none ∨
        decode_or_empty (fun _ => some "pem") [80] = none)
        → (rpc.CreateAsymmetricKeyPair (fun _ => List.replicate 16 1)
            (fun _ => some "pem") [9] (List.replicate 16 2)
            (List.replicate 16 3) "k1" 5 [80] [81] []
            { key_name := "rsa", key_size := 16, key_type := "",
              mk_version := 0 }).2 = .error .internal)) ∧
    (∃ db1F rowF,
      service.create_asymmetric_key_pair (fun _ => List.replicate 16 1)
        (List.replicate 16 2) (List.replicate 16 3) "k1" 5 [80] [81] []
        "rsa" (rpc.mkVersionOrOne 0) (rpc.keyTypeOrNone "")
        = .ok (db1F, rowF) ∧
      rowF ∈ db1F ∧
      (rpc.CreateAsymmetricKeyPair (fun _ => List.replicate 16 1)
        (fun _ => none) [9] (List.replicate 16 2) (List.replicate 16 3)
        "k1" 5 [80] [81] []
        { key_name := "rsa", key_size := 16, key_type := "",
          mk_version := 0 }).1 = db1F ∧
      (rpc.CreateAsymmetricKeyPair (fun _ => List.replicate 16 1)
        (fun _ => none) [9] (List.replicate 16 2) (List.replicate 16 3)
        "k1" 5 [80] [81] []
        { key_name := "rsa", key_size := 16, key_type := "",
          mk_version := 0 }).2 = .error .internal) := by
  constructor
  · exact C7_create_asym_refetch_persists (fun _ => List.replicate 16 1)
      (fun _ => some "pem") [9] (List.replicate 16 2) (List.replicate 16 3)
      "k1" 5 [80] [81] []
      { key_name := "rsa", key_size := 16, key_type := "", mk_version := 0 }
      (by decide) (fun _ => by simp) (by simp) (by simp) (by decide)
  · obtain ⟨db1F, rowF, hok, hmem, _, _, _, h1, _, hfail⟩ :=
      C7_create_asym_refetch_persists (fun _ => List.replicate 16 1)
        (fun _ => none) [9] (List.replicate 16 2) (List.replicate 16 3)
        "k1" 5 [80] [81] []
        { key_name := "rsa", key_size := 16, key_type := "", mk_version := 0 }
        (by decide) (fun _ => by simp) (by simp) (by simp) (by decide)
    exact ⟨db1F, rowF, hok, hmem, h1, hfail (.inl (by decide))⟩


/-- C6: whenever the Service raises DecryptionError, the three read RPC
handlers abort with PERMISSION_DENIED (they name that mapping); the three
create handlers route every exception to INTERNAL, but on a sequential create
call the Service never raises DecryptionError, so the claimed mapping holds
for all six business RPCs (vacuously for the creates): CreateSecret performs
no decryption and its only service-level failure is the MultipleResultsFound
lookup error, and the re-fetch stage of CreateAsymmetricKeyPair /
CreateSymmetricKey decrypts the blob that was just encrypted under the same
master key, which always succeeds. -/
theorem C6_decryption_to_permission_denied
    (E : Bytes → Bytes) (dec : Bytes → Option String) (b64 : Bytes → String)
    (enc : String → Bytes) (urandom : Nat → Bytes) (mk : Bytes)
    (hmk : mk.isEmpty = false) (hE : ∀ b, 16 ≤ (E b).length)
    (iv ivPriv ivPub : Bytes) (hiv : iv.length = 16)
    (hivPriv : ivPriv.length = 16) (hivPub : ivPub.length = 16)
    (kid : String) (created_at : Nat) (pemPriv pemPub : Bytes)
    (dbS : List SecretsManagerSecret) (dbA : List AsymmetricKeyPair)
    (dbY : List SymmetricKey)
    (reqGS : rpc.GetSecretByNameRequest)
    (reqGA : rpc.GetAsymmetricKeyPairByKeyNameRequest)
    (reqGY : rpc.GetSymmetricKeyByKeyNameRequest)
    (reqCS : rpc.CreateSecretRequest)
    (reqCA : rpc.CreateAsymmetricKeyPairRequest)
    (reqCY : rpc.CreateSymmetricKeyRequest) :
    (service.get_secret_by_name E dbS reqGS.key_name
        = .error .decryptionError →
      (rpc.GetSecretByName E dec mk dbS reqGS).2
        = .error .permissionDenied) ∧
    (service.get_asymmetric_key_pair_by_key_name E dbA reqGA.key_name
        (if reqGA.return_key_type == "" then "public"
          else reqGA.return_key_type) = .error .decryptionError →
      (rpc.GetAsymmetricKeyPairByKeyName E dec mk dbA reqGA).2
        = .error .permissionDenied) ∧
    (service.get_symmetric_key_by_key_name E dbY reqGY.key_name
        = .error .decryptionError →
      (rpc.GetSymmetricKeyByKeyName E b64 mk dbY reqGY).2
        = .error .permissionDenied) ∧
    (∀ e, service.create_secrets_key E iv kid created_at dbS reqCS.key_name
        (enc reqCS.value) (rpc.mkVersionOrOne reqCS.mk_version)
        (rpc.keyTypeOrNone reqCS.key_type) = .error e
        → e = .multipleResultsFound) ∧
    (∀ e, service.create_asymmetric_key_pair E ivPriv ivPub kid created_at
        pemPriv pemPub dbA reqCA.key_name
        (rpc.mkVersionOrOne reqCA.mk_version)
        (rpc.keyTypeOrNone reqCA.key_type) = .error e
        → e = .multipleResultsFound) ∧
    (∀ db1 row, service.create_asymmetric_key_pair E ivPriv ivPub kid
        created_at pemPriv pemPub dbA reqCA.key_name
        (rpc.mkVersionOrOne reqCA.mk_version)
        (rpc.keyTypeOrNone reqCA.key_type) = .ok (db1, row) →
      ∃ rec, service.get_asymmetric_key_pair_by_key_name E db1
        reqCA.key_name "pair" = .ok rec) ∧
    (∀ e, service.create_symmetric_key E urandom iv kid created_at dbY
        reqCY.key_size reqCY.key_name (rpc.mkVersionOrOne reqCY.mk_version)
        (rpc.keyTypeOrNone reqCY.key_type) = .error e
        → e = .multipleResultsFound) ∧
    (∀ db1 row, service.create_symmetric_key E urandom iv kid created_at dbY
        reqCY.key_size reqCY.key_name (rpc.mkVersionOrOne reqCY.mk_version)
        (rpc.keyTypeOrNone reqCY.key_type) = .ok (db1, row) →
      ∃ rec, service.get_symmetric_key_by_key_name E db1 reqCY.key_name
        = .ok rec) := by
  refine ⟨?_, ?_, ?_, ?_, ?_, ?_, ?_, ?_⟩
  · intro h
    simp only [rpc.GetSecretByName, hmk, Bool.false_eq_true, if_false, h]
  · intro h
    simp only [rpc.GetAsymmetricKeyPairByKeyName, hmk, Bool.false_eq_true,
      if_false, h]
  · intro h
    simp only [rpc.GetSymmetricKeyByKeyName, hmk, Bool.false_eq_true,
      if_false, h]
  · intro e h
    have h2 : crud.create_secret dbS kid reqCS.key_name
        (rpc.keyTypeOrNone reqCS.key_type)
        (aes_encrypt_data E iv (enc reqCS.value)) created_at
        (rpc.mkVersionOrOne reqCS.mk_version) = .error e := h
    rcases create_secret_cases dbS reqCS.key_name
        ⟨kid, rpc.keyTypeOrNone reqCS.key_type,
          aes_encrypt_data E iv (enc reqCS.value), created_at,
          rpc.mkVersionOrOne reqCS.mk_version⟩ with ⟨_, herr⟩ | ⟨db1, hok, _, _, _⟩
    · rw [herr] at h2
      exact (Except.error.inj h2).symm
    · rw [hok] at h2
      exact Except.noConfusion h2
  · intro e h
    rcases create_asym_then_refetch E hE ivPriv ivPub hivPriv hivPub kid
        created_at pemPriv pemPub dbA reqCA.key_name
        (rpc.mkVersionOrOne reqCA.mk_version)
        (rpc.keyTypeOrNone reqCA.key_type) with
      ⟨_, herr⟩ | ⟨db1, row, hok, _⟩
    · rw [herr] at h
      exact (Except.error.inj h).symm
    · rw [hok] at h
      exact Except.noConfusion h
  · intro db1 row h
    rcases create_asym_then_refetch E hE ivPriv ivPub hivPriv hivPub kid
        created_at pemPriv pemPub dbA reqCA.key_name
        (rpc.mkVersionOrOne reqCA.mk_version)
        (rpc.keyTypeOrNone reqCA.key_type) with
      ⟨_, herr⟩ | ⟨db1x, rowx, hok, _, _, _, _, _, _, _, _, _, hget⟩
    · rw [herr] at h
      exact Except.noConfusion h
    · have hp := Except.ok.inj (hok.symm.trans h)
      have hdb1 : db1x = db1 := congrArg Prod.fst hp
      subst hdb1
      exact ⟨_, hget⟩
  · intro e h
    rcases create_sym_then_refetch E hE urandom iv hiv kid created_at dbY
        reqCY.key_size reqCY.key_name (rpc.mkVersionOrOne reqCY.mk_version)
        (rpc.keyTypeOrNone reqCY.key_type) with
      ⟨_, herr⟩ | ⟨db1, row, hok, _⟩
    · rw [herr] at h
      exact (Except.error.inj h).symm
    · rw [hok] at h
      exact Except.noConfusion h
  · intro db1 row h
    rcases create_sym_then_refetch E hE urandom iv hiv kid created_at dbY
        reqCY.key_size reqCY.key_name (rpc.mkVersionOrOne reqCY.mk_version)
        (rpc.keyTypeOrNone reqCY.key_type) with
      ⟨_, herr⟩ | ⟨db1x, rowx, hok, _, _, hget⟩
    · rw [herr] at h
      exact Except.noConfusion h
    · have hp := Except.ok.inj (hok.symm.trans h)
      have hdb1 : db1x = db1 := congrArg Prod.fst hp
      subst hdb1
      exact ⟨_, hget⟩


theorem C6_decryption_to_permission_denied_witness :
    (rpc.GetSecretByName (fun _ => List.replicate 16 1) (fun _ => some "x")
        [9] [{ kid := "s", key_name := "k", key_type := none, value := [],
               created_at := 1, mk_version := 1, is_active := true }]
        ⟨"k"⟩).2 = .error .permissionDenied ∧
    (rpc.GetAsymmetricKeyPairByKeyName (fun _ => List.replicate 16 1)
        (fun _ => some "x") [9]
        [{ kid := "a", key_name := "k", key_type := none, public_key := [],
           private_key := some [], created_at := 1, mk_version := 1,
           is_active := true }]
        ⟨"k", "public"⟩).2 = .error .permissionDenied ∧
    (rpc.GetSymmetricKeyByKeyName (fun _ => List.replicate 16 1)
        (fun _ => "b") [9]
        [{ kid := "y", key_name := "k", key_type := none, key_value := [],
           created_at := 1, mk_version := 1, is_active := true }]
        ⟨"k"⟩).2 = .error .permissionDenied ∧
    (Exc.multipleResultsFound = Exc.multipleResultsFound) ∧
    (Exc.multipleResultsFound = Exc.multipleResultsFound) ∧
    (∃ rec, service.get_asymmetric_key_pair_by_key_name
        (fun _ => List.replicate 16 1)
        [{ kid := "k1", key_name := "rsa", key_type := none,
           public_key := aes_encrypt_data (fun _ => List.replicate 16 1)
             (List.replicate 16 3) [81],
           private_key := some (aes_encrypt_data (fun _ => List.replicate 16 1)
             (List.replicate 16 2) [80]),
           created_at := 5, mk_version := 1, is_active := true }]
        "rsa" "pair" = .ok rec) ∧
    (Exc.multipleResultsFound = Exc.multipleResultsFound) ∧
    (∃ rec, service.get_symmetric_key_by_key_name
        (fun _ => List.replicate 16 1)
        [{ kid := "k1", key_name := "aes", key_type := none,
           key_value := aes_encrypt_data (fun _ => List.replicate 16 1)
             (List.replicate 16 2) (List.replicate 32 0),
           created_at := 5, mk_version := 1, is_active := true }]
        "aes" = .ok rec) := by
  obtain ⟨g1, g2, g3, _, _, _, _, _⟩ :=
    C6_decryption_to_permission_denied (fun _ => List.replicate 16 1)
      (fun _ => some "x") (fun _ => "b") (fun _ => [1])
      (fun n => List.replicate n 0) [9] (by decide) (fun b => by simp)
      (List.replicate 16 2) (List.replicate 16 2) (List.replicate 16 3)
      (by simp) (by simp) (by simp) "k1" 5 [80] [81]
      [{ kid := "s", key_name := "k", key_type := none, value := [],
         created_at := 1, mk_version := 1, is_active := true }]
      [{ kid := "a", key_name := "k", key_type := none, public_key := [],
         private_key := some [], created_at := 1, mk_version := 1,
         is_active := true }]
      [{ kid := "y", key_name := "k", key_type := none, key_value := [],
         created_at := 1, mk_version := 1, is_active := true }]
      ⟨"k"⟩ ⟨"k", "public"⟩ ⟨"k"⟩ ⟨"k", "v", "", 0⟩ ⟨"k", 16, "", 0⟩
      ⟨"k", 32, "", 0⟩
  obtain ⟨_, _, _, c4, c5, _, c7, _⟩ :=
    C6_decryption_to_permission_denied (fun _ => List.replicate 16 1)
      (fun _ => some "x") (fun _ => "b") (fun _ => [1])
      (fun n => List.replicate n 0) [9] (by decide) (fun b => by simp)
      (List.replicate 16 2) (List.replicate 16 2) (List.replicate 16 3)
      (by simp) (by simp) (by simp) "k1" 5 [80] [81]
      [{ kid := "s1", key_name := "k", key_type := none, value := [],
         created_at := 1, mk_version := 1, is_active := true },
       { kid := "s2", key_name := "k", key_type := none, value := [],
         created_at := 2, mk_version := 1, is_active := true }]
      [{ kid := "a1", key_name := "k", key_type := none, public_key := [],
         private_key := some [], created_at := 1, mk_version := 1,
         is_active := true },
       { kid := "a2", key_name := "k", key_type := none, public_key := [],
         private_key := some [], created_at := 2, mk_version := 1,
         is_active := true }]
      [{ kid := "y1", key_name := "k", key_type := none, key_value := [],
         created_at := 1, mk_version := 1, is_active := true },
       { kid := "y2", key_name := "k", key_type := none, key_value := [],
         created_at := 2, mk_version := 1, is_active := true }]
      ⟨"k"⟩ ⟨"k", "public"⟩ ⟨"k"⟩ ⟨"k", "v", "", 0⟩ ⟨"k", 16, "", 0⟩
      ⟨"k", 32, "", 0⟩
  obtain ⟨_, _, _, _, _, c6, _, c8⟩ :=
    C6_decryption_to_permission_denied (fun _ => List.replicate 16 1)
      (fun _ => some "x") (fun _ => "b") (fun _ => [1])
      (fun n => List.replicate n 0) [9] (by decide) (fun b => by simp)
      (List.replicate 16 2) (List.replicate 16 2) (List.replicate 16 3)
      (by simp) (by simp) (by simp) "k1" 5 [80] [81]
      [] [] []
      ⟨"k"⟩ ⟨"k", "public"⟩ ⟨"k"⟩ ⟨"k", "v", "", 0⟩ ⟨"rsa", 16, "", 0⟩
      ⟨"aes", 32, "", 0⟩
  refine ⟨g1 (by decide), g2 (by decide), g3 (by decide),
    c4 .multipleResultsFound (by decide), c5 .multipleResultsFound (by decide),
    c6 [{ kid := "k1", key_name := "rsa", key_type := none,
          public_key := aes_encrypt_data (fun _ => List.replicate 16 1)
            (List.replicate 16 3) [81],
          private_key := some (aes_encrypt_data (fun _ => List.replicate 16 1)
            (List.replicate 16 2) [80]),
          created_at := 5, mk_version := 1, is_active := true }]
      { kid := "k1", key_name := "rsa", key_type := none,
        public_key := aes_encrypt_data (fun _ => List.replicate 16 1)
          (List.replicate 16 3) [81],
        private_key := some (aes_encrypt_data (fun _ => List.replicate 16 1)
          (List.replicate 16 2) [80]),
        created_at := 5, mk_version := 1, is_active := true }
      (by decide),
    c7 .multipleResultsFound (by decide),
    c8 [{ kid := "k1", key_name := "aes", key_type := none,
          key_value := aes_encrypt_data (fun _ => List.replicate 16 1)
            (List.replicate 16 2) (List.replicate 32 0),
          created_at := 5, mk_version := 1, is_active := true }]
      { kid := "k1", key_name := "aes", key_type := none,
        key_value := aes_encrypt_data (fun _ => List.replicate 16 1)
          (List.replicate 16 2) (List.replicate 32 0),
        created_at := 5, mk_version := 1, is_active := true }
      (by decide)⟩

end SecretsManager
